import Mathlib

/-! Lowest-order Nedelec assembly (`src/matrix.c`, `src/nedelec.c`)

Shallow embedding of the element kernels and of the per-cell assembly loop of
`assemble_system`, together with the basis tables built by `nedelec_basis`.

Conventions of the embedding

* `PetscReal` / `PetscScalar` values live in an arbitrary linearly ordered field `α`
  (exact arithmetic; `ℝ` is an instance, `ℚ` is the instance used for evaluation).
  The mass kernel is embedded a second time in binary64 arithmetic (`F64`), where each
  operation is rounded.
* A C array reached through a pointer is a total map from indices to values
  (`Nat → α`); a store `a[i] = v` is `Function.update a i v`.
* `PetscInt` values that can be negative (`boundary_edge`, signs, mesh points, error
  codes) are `Int`; loop counters that start at `0` are `Nat`.
* A counted loop `for (i = 0; i < n; i++) body` is `forLoop n body`.
-/

set_option autoImplicit false

namespace EdgeElements

/-! ## Data model -/

/-- Modelled from the spec: `quadrature.h` is not part of the sources. A rule has `size`
points and a flat table `pw` holding `(x, y, weight)` of point `i` at `3*i`, `3*i+1`,
`3*i+2`, which is how `nedelec.c` and `matrix.c` read it. -/
structure quadrature (α : Type) where
  size : Nat
  pw : Nat → α

/-- The `struct function_space` as `matrix.c` and `nedelec.c` use it: value table, curl
table, number of basis functions and the quadrature rule `q`. (The function pointer
`assemble_matrix` of `nedelec.h` is never read by the embedded code.) -/
structure function_space (α : Type) where
  val : Nat → α
  cval : Nat → α
  nbasis : Int
  q : quadrature α

/-- The loop `for (i = 0; i < n; i++) s = body i s`. -/
def forLoop {σ : Type} (n : Nat) (body : Nat → σ → σ) (s : σ) : σ :=
  match n with
  | 0 => s
  | m + 1 => body m (forLoop m body s)

section Kernels

variable {α : Type} [LinearOrderedField α]

/-! ## Element kernels (`matrix.c`, lines 16-94) -/

/-- Translation of `stiffness_matrix_2D` (`matrix.c:16-32`). -/
def stiffness_matrix_2D (fs : function_space α) (detJ : α) (sign_k sign_l : Int)
    (k l : Nat) : α :=
  let loc : α := 1 / |detJ| * (sign_l : α) * (sign_k : α)
  loc * 0.5 * fs.cval k * fs.cval l

/-- Body of the quadrature loop of `mass_matrix_2D` (`matrix.c:48-54`). -/
def mass_matrix_2D_body (C : Nat → α) (fs : function_space α) (k_ned l_ned : Nat)
    (i : Nat) (sum : α) : α :=
  let k_off := k_ned * (fs.q.size * 2) + i * 2
  let l_off := l_ned * (fs.q.size * 2) + i * 2
  let x := C 0 * fs.val (k_off + 0) + C 1 * fs.val (k_off + 1)
  let y := C 2 * fs.val (k_off + 0) + C 3 * fs.val (k_off + 1)
  let mvv := x * fs.val (l_off + 0) + y * fs.val (l_off + 1)
  sum + fs.q.pw (i * 3 + 2) * mvv * 1

/-- Translation of `mass_matrix_2D` (`matrix.c:39-58`). -/
def mass_matrix_2D (C : Nat → α) (fs : function_space α) (detJ : α)
    (sign_k sign_l : Int) (k_ned l_ned : Nat) : α :=
  let loc : α := |detJ| * (sign_k : α) * (sign_l : α)
  let sum : α := forLoop fs.q.size (mass_matrix_2D_body C fs k_ned l_ned) 0
  loc * sum * 0.5

/-- Body of the quadrature loop of `load_vector_2D` (`matrix.c:73-79`), with
`f_x = f_y = 1.0`. -/
def load_vector_2D_body (invJ : Nat → α) (fs : function_space α) (k : Nat)
    (i : Nat) (sum : α) : α :=
  let f_x : α := 1.0
  let f_y : α := 1.0
  let k_off := k * (fs.q.size * 2) + i * 2
  let x := invJ 0 * fs.val (k_off + 0) + invJ 2 * fs.val (k_off + 1)
  let y := invJ 1 * fs.val (k_off + 0) + invJ 3 * fs.val (k_off + 1)
  let mvv := x * f_x + y * f_y
  sum + fs.q.pw (i * 3 + 2) * mvv

/-- Translation of `load_vector_2D` (`matrix.c:60-83`). -/
def load_vector_2D (invJ : Nat → α) (fs : function_space α) (detJ : α)
    (k : Nat) (sign_k : Int) : α :=
  let loc : α := |detJ| * (sign_k : α)
  let sum : α := forLoop fs.q.size (load_vector_2D_body invJ fs k) 0
  loc * sum * 0.5

/-- Translation of `_invBk_invBkT_2D` (`matrix.c:88-94`): four stores into `res`, the
third one reading back `res[1]`. The result is the new content of `res`. -/
def _invBk_invBkT_2D (invBk : Nat → α) (res : Nat → α) : Nat → α :=
  let res0 := Function.update res 0 (invBk 0 * invBk 0 + invBk 1 * invBk 1)
  let res1 := Function.update res0 1 (invBk 0 * invBk 2 + invBk 1 * invBk 3)
  let res2 := Function.update res1 2 (res1 1)
  Function.update res2 3 (invBk 2 * invBk 2 + invBk 3 * invBk 3)

/-- Translation of `_invBk_invBkT_2D` (`matrix.c:88-94`) over one address space: `mem`
maps addresses to values, `invBk` and `res` are the addresses the two pointers hold, and
every read `invBk[j]`, `res[j]` and store `res[j] = v` goes through `mem`. The result is
the memory after the call. -/
def _invBk_invBkT_2D_mem (mem : Nat → α) (invBk res : Nat) : Nat → α :=
  let mem0 := Function.update mem (res + 0)
    (mem (invBk + 0) * mem (invBk + 0) + mem (invBk + 1) * mem (invBk + 1))
  let mem1 := Function.update mem0 (res + 1)
    (mem0 (invBk + 0) * mem0 (invBk + 2) + mem0 (invBk + 1) * mem0 (invBk + 3))
  let mem2 := Function.update mem1 (res + 2) (mem1 (res + 1))
  Function.update mem2 (res + 3)
    (mem2 (invBk + 2) * mem2 (invBk + 2) + mem2 (invBk + 3) * mem2 (invBk + 3))

end Kernels

/-! ## Mesh, context and target models -/

/-- Modelled from the spec: the PETSc mesh object (`mesh.h` / DMPlex are not part of the
sources) together with the solver context reached through `DMGetApplicationContext`.
Each field is the answer of one query made by `assemble_system`:
`dim` (`DMGetDimension`), `cstart`/`cend` and `estart`/`eend`
(`DMPlexGetHeightStratum` at height 0 and 1), `coneSize` (`DMPlexGetConeSize`),
`cone c k` (entry `k` of the edge list of `DMPlexGetCone` for point `c`),
`supportSize` (`DMPlexGetSupportSize`), `invBk c` and `detBk c`
(`DMPlexComputeCellGeometryAffineFEM`; `invBk c` is the row-major 2x2 inverse Jacobian),
and `signs` (the table `sctx->signs` of `util.h`). -/
structure DM (α : Type) where
  dim : Int
  cstart : Int
  cend : Int
  estart : Int
  eend : Int
  coneSize : Int → Int
  cone : Int → Nat → Int
  supportSize : Int → Int
  invBk : Int → Nat → α
  detBk : Int → α
  signs : Int → Int

/-- Modelled from the spec: the `PetscErrorCode` returned by each collaborator call whose
result `assemble_system` checks with `CHKERRQ` (`0` is success). The per-cell calls are
indexed by the cell. -/
structure ErrorCodes where
  getDimension : Int
  getHeightStratum0 : Int
  getConeSize : Int
  getHeightStratum1 : Int
  getApplicationContext : Int
  computeCellGeometry : Int → Int
  getCone : Int → Int
  matSetValues : Int → Int
  vecSetValues : Int → Int

/-- The three buffers declared once before the cell loop (`matrix.c:119-120`):
`local[nedges][nedges]`, `load[nedges]` and `indices[nedges]`. -/
structure Buffers (α : Type) where
  localM : Nat → Nat → α
  load : Nat → α
  indices : Nat → Int

/-- The store `local[k][l] = v`. -/
def Buffers.setLocal {α : Type} (buf : Buffers α) (k l : Nat) (v : α) : Buffers α :=
  { buf with localM := Function.update buf.localM k (Function.update (buf.localM k) l v) }

/-- The store `load[k] = v`. -/
def Buffers.setLoad {α : Type} (buf : Buffers α) (k : Nat) (v : α) : Buffers α :=
  { buf with load := Function.update buf.load k v }

/-- The store `indices[k] = v`. -/
def Buffers.setIndex {α : Type} (buf : Buffers α) (k : Nat) (v : Int) : Buffers α :=
  { buf with indices := Function.update buf.indices k v }

/-- Contents of the storage that the C code reads or passes on without having
initialised it: the three buffers before the first cell, and `_tmp_matrix` of each cell. -/
structure Uninit (α : Type) where
  buffers : Buffers α
  tmp_matrix : Int → Nat → α

/-- The calls `assemble_system` makes on the targets `A` and `b`, in order. For
`MatSetValues` the arguments are `nedges`, the index buffer and the local matrix (passed
in C as the row-major view `*local`); for `VecSetValues`, `nedges`, the index buffer and
the load buffer. All scatter calls use `ADD_VALUES`. -/
inductive TargetCall (α : Type) where
  | MatSetValues (n : Int) (indices : Nat → Int) (values : Nat → Nat → α)
  | VecSetValues (n : Int) (indices : Nat → Int) (values : Nat → α)
  | MatAssemblyBegin
  | MatAssemblyEnd
  | VecAssemblyBegin
  | VecAssemblyEnd

/-- Modelled from the spec: the global linear system, a matrix `A` and a vector `b`
addressed by global dof indices. -/
structure Target (α : Type) where
  A : Int → Int → α
  b : Int → α

section Assembly

variable {α : Type} [LinearOrderedField α]

/-- Modelled from the spec: the additive update `A[i][j] += v`. -/
def Target.addMat (t : Target α) (i j : Int) (v : α) : Target α :=
  ⟨Function.update t.A i (Function.update (t.A i) j (t.A i j + v)), t.b⟩

/-- Modelled from the spec: the additive update `b[i] += v`. -/
def Target.addVec (t : Target α) (i : Int) (v : α) : Target α :=
  ⟨t.A, Function.update t.b i (t.b i + v)⟩

/-- Modelled from the spec: the effect of one target call ("additive set-at-indices" for
the two scatter calls; the finalize calls flush and leave every entry as it is). -/
def TargetCall.apply (call : TargetCall α) (t : Target α) : Target α :=
  match call with
  | .MatSetValues n indices values =>
      forLoop n.toNat (fun i t1 =>
        forLoop n.toNat (fun j t2 => t2.addMat (indices i) (indices j) (values i j)) t1) t
  | .VecSetValues n indices values =>
      forLoop n.toNat (fun i t1 => t1.addVec (indices i) (values i)) t
  | .MatAssemblyBegin => t
  | .MatAssemblyEnd => t
  | .VecAssemblyBegin => t
  | .VecAssemblyEnd => t

/-- The targets after a sequence of calls. -/
def applyCalls (calls : List (TargetCall α)) (t : Target α) : Target α :=
  calls.foldl (fun t1 call => call.apply t1) t

/-! ## The per-cell loop of `assemble_system` (`matrix.c:122-165`) -/

/-- Body of the inner loop over `l` (`matrix.c:142-154`) for a fixed row `k`, with the
values of `boundary_edge` and `sign_k` of that row. -/
def pair_body (dm : DM α) (fs : function_space α) (c : Int) (tmp_matrix : Nat → α)
    (k : Nat) (boundary_edge : Int) (sign_k : Int) (l : Nat) (buf : Buffers α) :
    Buffers α :=
  let offset : Int := (c - dm.cstart) * 3
  let sign_l : Int := dm.signs (offset + l)
  if (k : Int) = boundary_edge ∧ (l : Int) = boundary_edge then
    let buf1 := buf.setLocal k l 1.0
    buf1.setLoad k 0.0
  else if (k : Int) = boundary_edge ∨ (l : Int) = boundary_edge then
    buf.setLocal k l 0.0
  else
    let buf1 := buf.setLocal k l
      (stiffness_matrix_2D fs (dm.detBk c) sign_k sign_l k l)
    buf1.setLocal k l
      (buf1.localM k l + mass_matrix_2D tmp_matrix fs (dm.detBk c) sign_k sign_l k l)

/-- Body of the loop over `k` (`matrix.c:134-158`). -/
def edge_body (dm : DM α) (fs : function_space α) (nedges : Nat) (c : Int)
    (tmp_matrix : Nat → α) (k : Nat) (buf : Buffers α) : Buffers α :=
  let offset : Int := (c - dm.cstart) * 3
  let edge_neighbours : Int := dm.supportSize (dm.cone c k)
  let boundary_edge : Int := if edge_neighbours = 1 then (k : Int) else -1
  let sign_k : Int := dm.signs (offset + k)
  let buf1 := buf.setIndex k (dm.cone c k - dm.estart)
  let buf2 := forLoop nedges (pair_body dm fs c tmp_matrix k boundary_edge sign_k) buf1
  if (k : Int) ≠ boundary_edge then
    buf2.setLoad k (load_vector_2D (dm.invBk c) fs (dm.detBk c) k sign_k)
  else buf2

/-- The matrix `_tmp_matrix` of cell `c` after the call at `matrix.c:131`. -/
def cell_tmp_matrix (dm : DM α) (un : Uninit α) (c : Int) : Nat → α :=
  _invBk_invBkT_2D (dm.invBk c) (un.tmp_matrix c)

/-- The buffers of cell `c` at the scatter (`matrix.c:131-159`), from the buffers `buf`
left by the previous cell. -/
def cell_local (dm : DM α) (un : Uninit α) (fs : function_space α) (nedges : Nat)
    (c : Int) (buf : Buffers α) : Buffers α :=
  forLoop nedges (edge_body dm fs nedges c (cell_tmp_matrix dm un c)) buf

/-- The cell loop `for (c = cstart; c < cend; c++)` with its early returns: `n` cells
remain, `c` is the current one, `trace` holds the target calls made so far. The result
is the error code (`0` when the loop ran to its end), the buffers and the calls. -/
def cell_loop (dm : DM α) (err : ErrorCodes) (un : Uninit α) (fs : function_space α)
    (nedges : Int) : Nat → Int → Buffers α → List (TargetCall α) →
    Int × Buffers α × List (TargetCall α)
  | 0, _, buf, trace => (0, buf, trace)
  | n + 1, c, buf, trace =>
    if err.computeCellGeometry c ≠ 0 then (err.computeCellGeometry c, buf, trace)
    else if err.getCone c ≠ 0 then (err.getCone c, buf, trace)
    else
      let buf1 := cell_local dm un fs nedges.toNat c buf
      let trace1 := trace ++ [TargetCall.MatSetValues nedges buf1.indices buf1.localM]
      if err.matSetValues c ≠ 0 then (err.matSetValues c, buf1, trace1)
      else
        let trace2 := trace1 ++ [TargetCall.VecSetValues nedges buf1.indices buf1.load]
        if err.vecSetValues c ≠ 0 then (err.vecSetValues c, buf1, trace2)
        else cell_loop dm err un fs nedges n (c + 1) buf1 trace2

/-- Translation of `assemble_system` (`matrix.c:98-179`): the returned error code and
the calls made on `A` and `b`. (`PetscLogEventBegin/End` touch neither.) -/
def assemble_system (dm : DM α) (err : ErrorCodes) (un : Uninit α)
    (fs : function_space α) : Int × List (TargetCall α) :=
  if err.getDimension ≠ 0 then (err.getDimension, [])
  else if err.getHeightStratum0 ≠ 0 then (err.getHeightStratum0, [])
  else if err.getConeSize ≠ 0 then (err.getConeSize, [])
  else if err.getHeightStratum1 ≠ 0 then (err.getHeightStratum1, [])
  else if err.getApplicationContext ≠ 0 then (err.getApplicationContext, [])
  else if dm.dim = 2 then
    let nedges : Int := dm.coneSize dm.cstart
    let r := cell_loop dm err un fs nedges (dm.cend - dm.cstart).toNat dm.cstart
      un.buffers []
    if r.1 ≠ 0 then (r.1, r.2.2)
    else (0, r.2.2 ++ [TargetCall.MatAssemblyBegin, TargetCall.MatAssemblyEnd,
      TargetCall.VecAssemblyBegin, TargetCall.VecAssemblyEnd])
  else (56, [])

/-- The five queries made before the dimension test (`matrix.c:103-112`) all return 0. -/
def ErrorCodes.preliminariesSucceed (err : ErrorCodes) : Prop :=
  err.getDimension = 0 ∧ err.getHeightStratum0 = 0 ∧ err.getConeSize = 0 ∧
    err.getHeightStratum1 = 0 ∧ err.getApplicationContext = 0

/-- Every checked collaborator call returns 0, for every cell. -/
def ErrorCodes.allSucceed (err : ErrorCodes) : Prop :=
  err.preliminariesSucceed ∧
    ∀ c : Int, err.computeCellGeometry c = 0 ∧ err.getCone c = 0 ∧
      err.matSetValues c = 0 ∧ err.vecSetValues c = 0

/-! ## Basis tables (`nedelec.c`) -/

/-- Body of the loop of `nedelec_basis` (`nedelec.c:21-40`): the stores into
`fspace->val` and `fspace->cval` for quadrature point `i`. -/
def nedelec_basis_body (i : Nat) (fspace : function_space α) : function_space α :=
  let M := fspace.q.size
  let _3i := 3 * i
  let offset_0 := 0 * (M * 2) + i * 2
  let offset_1 := 1 * (M * 2) + i * 2
  let offset_2 := 2 * (M * 2) + i * 2
  let pw := fspace.q.pw
  let val := fspace.val
  let val := Function.update val (offset_0 + 0) (-pw (_3i + 1))
  let val := Function.update val (offset_0 + 1) (pw (_3i + 0))
  let val := Function.update val (offset_1 + 0) (-pw (_3i + 1))
  let val := Function.update val (offset_1 + 1) (pw (_3i + 0) - 1)
  let val := Function.update val (offset_2 + 0) (1 - pw (_3i + 1))
  let val := Function.update val (offset_2 + 1) (pw (_3i + 0))
  let cval := fspace.cval
  let cval := Function.update cval (_3i + 0) 2
  let cval := Function.update cval (_3i + 1) 2
  let cval := Function.update cval (_3i + 2) 2
  { fspace with val := val, cval := cval }

/-- Translation of `nedelec_basis` (`nedelec.c:9-45`). `generate_quad` is the external
rule generator (`quadrature.h`, not part of the sources); `ierr_val`, `ierr_cval` are the
codes returned by the two `PetscMalloc1` calls and `val0`, `cval0` the contents of the
storage they hand out. The result is the returned code and the new `*fspace`. -/
def nedelec_basis (generate_quad : Int → quadrature α) (ierr_val ierr_cval : Int)
    (val0 cval0 : Nat → α) (fspace : function_space α) (q_order : Int) :
    Int × function_space α :=
  let fs1 : function_space α := { fspace with q := generate_quad q_order }
  let M := fs1.q.size
  if ierr_val ≠ 0 then (ierr_val, fs1)
  else
    let fs2 : function_space α := { fs1 with val := val0 }
    if ierr_cval ≠ 0 then (ierr_cval, fs2)
    else
      let fs3 : function_space α := { fs2 with cval := cval0 }
      let fs4 := forLoop M nedelec_basis_body fs3
      (ierr_cval, { fs4 with nbasis := 3 })

/-! ## Closed forms the kernels are compared with -/

/-- The 2-vector `psi_b(i) = (val[b*2M + 2i], val[b*2M + 2i + 1])`. -/
def psi (fs : function_space α) (b i : Nat) : α × α :=
  (fs.val (b * (2 * fs.q.size) + 2 * i), fs.val (b * (2 * fs.q.size) + 2 * i + 1))

/-- The weight `w_i` of quadrature point `i`. -/
def weight (fs : function_space α) (i : Nat) : α := fs.q.pw (3 * i + 2)

/-- The product `C * v` of a row-major 2x2 matrix and a 2-vector. -/
def matVec2 (C : Nat → α) (v : α × α) : α × α :=
  (C 0 * v.1 + C 1 * v.2, C 2 * v.1 + C 3 * v.2)

/-- The product `B^T * v` of the transpose of a row-major 2x2 matrix and a 2-vector. -/
def matTVec2 (B : Nat → α) (v : α × α) : α × α :=
  (B 0 * v.1 + B 2 * v.2, B 1 * v.1 + B 3 * v.2)

/-- The dot product of two 2-vectors. -/
def dot2 (u v : α × α) : α := u.1 * v.1 + u.2 * v.2

/-- Entry `n` (row-major, `n = 2*r + s`) of `B * B^T` for a row-major 2x2 matrix `B`:
the dot product of rows `r` and `s`. -/
def invBk_invBkT_spec (B : Nat → α) (n : Nat) : α :=
  B (2 * (n / 2)) * B (2 * (n % 2)) + B (2 * (n / 2) + 1) * B (2 * (n % 2) + 1)

/-- The stiffness formula of the specification:
`(1 / (2*|detBk|)) * sign_k * sign_l * curl_k * curl_l`. -/
def stiffness_spec (cval : Nat → α) (detBk : α) (sign_k sign_l : Int) (k l : Nat) : α :=
  1 / (2 * |detBk|) * (sign_k : α) * (sign_l : α) * cval k * cval l

/-- The mass formula of the specification:
`|detBk| * sign_k * sign_l * 0.5 * sum_i w_i * ((C * psi_k(i)) . psi_l(i))`. -/
def mass_spec (C : Nat → α) (fs : function_space α) (detBk : α) (sign_k sign_l : Int)
    (k l : Nat) : α :=
  |detBk| * (sign_k : α) * (sign_l : α) * (1 / 2) *
    ∑ i in Finset.range fs.q.size, weight fs i * dot2 (matVec2 C (psi fs k i)) (psi fs l i)

/-- The load formula of the specification:
`|detBk| * sign_k * 0.5 * sum_i w_i * ((invBk^T * psi_k(i)) . F)` with `F = (1, 1)`. -/
def load_spec (invBk : Nat → α) (fs : function_space α) (detBk : α) (sign_k : Int)
    (k : Nat) : α :=
  |detBk| * (sign_k : α) * (1 / 2) *
    ∑ i in Finset.range fs.q.size, weight fs i * dot2 (matTVec2 invBk (psi fs k i)) (1, 1)

/-- The reference basis functions of the specification: `psi0(x,y) = (-y, x)`,
`psi1(x,y) = (-y, x - 1)`, `psi2(x,y) = (1 - y, x)`. -/
def psi_ref (b : Nat) (x y : α) : α × α :=
  if b = 0 then (-y, x) else if b = 1 then (-y, x - 1) else (1 - y, x)

/-- Zero-initialised targets. -/
def zeroTarget : Target α := ⟨fun _ _ => 0, fun _ => 0⟩

/-- The value `pair_body` stores at `local[k][l]`, branch by branch. -/
def pair_value (dm : DM α) (fs : function_space α) (c : Int) (tmp_matrix : Nat → α)
    (k : Nat) (boundary_edge : Int) (sign_k : Int) (l : Nat) : α :=
  if (k : Int) = boundary_edge ∧ (l : Int) = boundary_edge then 1
  else if (k : Int) = boundary_edge ∨ (l : Int) = boundary_edge then 0
  else stiffness_matrix_2D fs (dm.detBk c) sign_k (dm.signs ((c - dm.cstart) * 3 + l)) k l
    + mass_matrix_2D tmp_matrix fs (dm.detBk c) sign_k
        (dm.signs ((c - dm.cstart) * 3 + l)) k l

/-- Local edge `k` of cell `c` is a boundary edge: its global edge has support size 1. -/
def is_boundary (dm : DM α) (c : Int) (k : Nat) : Prop :=
  dm.supportSize (dm.cone c k) = 1

instance (dm : DM α) (c : Int) (k : Nat) : Decidable (is_boundary dm c k) := by
  unfold is_boundary; infer_instance

/-- The sign the loop reads for local edge `k` of cell `c`: `sctx->signs[offset + k]`
with `offset = (c - cstart) * 3`. -/
def cell_sign (dm : DM α) (c : Int) (k : Nat) : Int :=
  dm.signs ((c - dm.cstart) * 3 + k)

/-- The value the loop stores last at `local[k][l]`, read off the three branches of
`pair_body` with the value `boundary_edge` has in row `k` (`k` or `-1`). -/
def local_entry (dm : DM α) (fs : function_space α) (c : Int) (C : Nat → α)
    (k l : Nat) : α :=
  if is_boundary dm c k then (if l = k then 1 else 0)
  else stiffness_matrix_2D fs (dm.detBk c) (cell_sign dm c k) (cell_sign dm c l) k l
    + mass_matrix_2D C fs (dm.detBk c) (cell_sign dm c k) (cell_sign dm c l) k l

end Assembly

/-! ## The mass kernel in binary64 arithmetic

`PetscReal` is an IEEE 754 binary64 number in the code. The definitions above compute in
exact arithmetic; the definitions of this section repeat `_invBk_invBkT_2D` and
`mass_matrix_2D` with every `+` and `*` rounded to nearest, ties to even, one operation
at a time in the order of the C expressions (no fused multiply-add). The exponent range
is not bounded: overflow, underflow and subnormal numbers are not modelled. -/

namespace Example

/-- The one-point rule: the barycentre `(1/3, 1/3)` with weight `1`. -/
def oneRule : quadrature ℚ := ⟨1, fun n => if n = 2 then 1 else 1 / 3⟩

/-- The tables `nedelec_basis` builds from `oneRule`, both allocations succeeding. -/
def oneSpace : function_space ℚ :=
  (nedelec_basis (fun _ => oneRule) 0 0 (fun _ => 0) (fun _ => 0)
    ⟨fun _ => 0, fun _ => 0, 0, ⟨0, fun _ => 0⟩⟩ 1).2

/-- Two triangles, cells `0` and `1`, vertices `2..5`, edges `6..10`. Cell `0` has the
edges `6, 7, 8` and cell `1` the edges `7, 9, 10`; edge `7` is shared (support size 2),
the other four lie on the boundary. Cell `0` is the reference triangle (identity
Jacobian, `detBk = 1`), cell `1` its point reflection. -/
def twoTriangles : DM ℚ where
  dim := 2
  cstart := 0
  cend := 2
  estart := 6
  eend := 11
  coneSize := fun _ => 3
  cone := fun c k =>
    if c = 0 then (if k = 0 then 6 else if k = 1 then 7 else 8)
    else (if k = 0 then 7 else if k = 1 then 9 else 10)
  supportSize := fun e => if e = 7 then 2 else 1
  invBk := fun c n =>
    if c = 0 then (if n = 0 ∨ n = 3 then 1 else 0)
    else (if n = 0 ∨ n = 3 then -1 else 0)
  detBk := fun _ => 1
  signs := fun n => if n = 3 then -1 else 1

/-- The same mesh reported with topological dimension 3. -/
def threeDim : DM ℚ := { twoTriangles with dim := 3 }

/-- Every collaborator call succeeds. -/
def allOk : ErrorCodes := ⟨0, 0, 0, 0, 0, fun _ => 0, fun _ => 0, fun _ => 0, fun _ => 0⟩

/-- Every call succeeds except `DMPlexGetConeSize`, which returns code 63. -/
def coneSizeFails : ErrorCodes := { allOk with getConeSize := 63 }

/-- Every call succeeds except `DMPlexGetHeightStratum` at height 0, which returns code
11, and `DMGetApplicationContext`, which returns code 15. -/
def twoQueriesFail : ErrorCodes :=
  { allOk with getHeightStratum0 := 11, getApplicationContext := 15 }

/-- Zero-filled storage. -/
def zeroInit : Uninit ℚ := ⟨⟨fun _ _ => 0, fun _ => 0, fun _ => 0⟩, fun _ _ => 0⟩

/-- The buffers of cell `0` of `twoTriangles` at its scatter. -/
def cell0 : Buffers ℚ := cell_local twoTriangles zeroInit oneSpace 3 0 zeroInit.buffers

end Example

/-! ## Loop lemmas -/

section Lemmas

variable {α : Type} [LinearOrderedField α]

theorem forLoop_succ {σ : Type} (n : Nat) (body : Nat → σ → σ) (s : σ) :
    forLoop (n + 1) body s = body n (forLoop n body s) := rfl

theorem half_eq : (0.5 : α) = 1 / 2 := by norm_num

theorem one_lit : (1.0 : α) = 1 := by norm_num

theorem zero_lit : (0.0 : α) = 0 := by norm_num

theorem pair_body_indices (dm : DM α) (fs : function_space α) (c : Int)
    (tmp : Nat → α) (k : Nat) (be sk : Int) (l : Nat) (buf : Buffers α) :
    (pair_body dm fs c tmp k be sk l buf).indices = buf.indices := by
  unfold pair_body
  simp only []
  split_ifs <;> rfl

theorem pair_body_localM (dm : DM α) (fs : function_space α) (c : Int)
    (tmp : Nat → α) (k : Nat) (be sk : Int) (l : Nat) (buf : Buffers α) (k1 l1 : Nat) :
    (pair_body dm fs c tmp k be sk l buf).localM k1 l1 =
      if k1 = k ∧ l1 = l then pair_value dm fs c tmp k be sk l else buf.localM k1 l1 := by
  unfold pair_body pair_value
  simp only [one_lit, zero_lit]
  by_cases hk : k1 = k <;> by_cases hl : l1 = l <;>
    split_ifs <;>
    simp_all [Buffers.setLocal, Buffers.setLoad, Function.update_apply]

theorem pair_body_load (dm : DM α) (fs : function_space α) (c : Int)
    (tmp : Nat → α) (k : Nat) (be sk : Int) (l : Nat) (buf : Buffers α) (k1 : Nat) :
    (pair_body dm fs c tmp k be sk l buf).load k1 =
      if k1 = k ∧ (k : Int) = be ∧ (l : Int) = be then 0 else buf.load k1 := by
  unfold pair_body
  simp only [one_lit, zero_lit]
  split_ifs <;>
    simp_all [Buffers.setLocal, Buffers.setLoad, Function.update_apply]

theorem row_loop_indices (dm : DM α) (fs : function_space α) (c : Int)
    (tmp : Nat → α) (k : Nat) (be sk : Int) (buf : Buffers α) (n : Nat) :
    (forLoop n (pair_body dm fs c tmp k be sk) buf).indices = buf.indices := by
  induction n with
  | zero => rfl
  | succ m ih => rw [forLoop_succ, pair_body_indices, ih]

theorem row_loop_localM (dm : DM α) (fs : function_space α) (c : Int)
    (tmp : Nat → α) (k : Nat) (be sk : Int) (buf : Buffers α) (n k1 l1 : Nat) :
    (forLoop n (pair_body dm fs c tmp k be sk) buf).localM k1 l1 =
      if k1 = k ∧ l1 < n then pair_value dm fs c tmp k be sk l1 else buf.localM k1 l1 := by
  induction n with
  | zero => simp [forLoop]
  | succ m ih =>
    rw [forLoop_succ, pair_body_localM, ih]
    by_cases hk : k1 = k
    · by_cases hl : l1 = m
      · subst hl; simp [hk]
      · have h1 : (l1 < m + 1) ↔ (l1 < m) := by omega
        simp [hk, hl, h1]
    · simp [hk]

theorem row_loop_load (dm : DM α) (fs : function_space α) (c : Int)
    (tmp : Nat → α) (k : Nat) (be sk : Int) (buf : Buffers α) (n k1 : Nat) :
    (forLoop n (pair_body dm fs c tmp k be sk) buf).load k1 =
      if k1 = k ∧ (k : Int) = be ∧ k < n then 0 else buf.load k1 := by
  induction n with
  | zero => simp [forLoop]
  | succ m ih =>
    rw [forLoop_succ, pair_body_load, ih]
    by_cases hk : k1 = k
    · by_cases hb : (k : Int) = be
      · by_cases hm : k = m
        · subst hm; simp [hk, hb]
        · have h1 : (k < m + 1) ↔ (k < m) := by omega
          have h2 : ¬ ((m : Int) = be) := by
            intro h; apply hm; rw [← h] at hb; exact_mod_cast hb
          simp [hk, hb, h1, h2]
      · simp [hk, hb]
    · simp [hk]

theorem pair_value_eq (dm : DM α) (fs : function_space α) (c : Int) (tmp : Nat → α)
    (k l : Nat) :
    pair_value dm fs c tmp k (if dm.supportSize (dm.cone c k) = 1 then (k : Int) else -1)
      (dm.signs ((c - dm.cstart) * 3 + k)) l = local_entry dm fs c tmp k l := by
  unfold pair_value local_entry is_boundary cell_sign
  by_cases hb : dm.supportSize (dm.cone c k) = 1
  · by_cases hl : l = k
    · simp [hb, hl]
    · have h1 : ¬ ((l : Int) = (k : Int)) := by exact_mod_cast hl
      simp [hb, hl, h1]
  · have h1 : ¬ ((k : Int) = -1) := by omega
    have h2 : ¬ ((l : Int) = -1) := by omega
    simp [hb, h1, h2]

theorem edge_body_localM (dm : DM α) (fs : function_space α) (n : Nat) (c : Int)
    (tmp : Nat → α) (k : Nat) (buf : Buffers α) (k1 l1 : Nat) :
    (edge_body dm fs n c tmp k buf).localM k1 l1 =
      if k1 = k ∧ l1 < n then local_entry dm fs c tmp k l1 else buf.localM k1 l1 := by
  have key := pair_value_eq dm fs c tmp k l1
  unfold edge_body
  simp only []
  by_cases hb : dm.supportSize (dm.cone c k) = 1
  · simp only [hb, if_true] at key
    simp [hb, Buffers.setIndex, row_loop_localM, key]
  · have h2 : ¬ ((k : Int) = -1) := by omega
    simp only [hb, if_false] at key
    simp [hb, h2, Buffers.setLoad, Buffers.setIndex, row_loop_localM, key]

theorem edge_body_indices (dm : DM α) (fs : function_space α) (n : Nat) (c : Int)
    (tmp : Nat → α) (k : Nat) (buf : Buffers α) (k1 : Nat) :
    (edge_body dm fs n c tmp k buf).indices k1 =
      if k1 = k then dm.cone c k - dm.estart else buf.indices k1 := by
  unfold edge_body
  simp only []
  split_ifs <;>
    simp_all [Buffers.setLoad, Buffers.setIndex, row_loop_indices, Function.update_apply]

theorem edge_body_load (dm : DM α) (fs : function_space α) (n : Nat) (c : Int)
    (tmp : Nat → α) (k : Nat) (buf : Buffers α) (k1 : Nat) (hk : k < n) :
    (edge_body dm fs n c tmp k buf).load k1 =
      if k1 = k then
        (if is_boundary dm c k then 0
         else load_vector_2D (dm.invBk c) fs (dm.detBk c) k (cell_sign dm c k))
      else buf.load k1 := by
  unfold edge_body is_boundary cell_sign
  simp only []
  by_cases hb : dm.supportSize (dm.cone c k) = 1
  · by_cases h1 : k1 = k
    · simp [hb, h1, row_loop_load, Buffers.setIndex, hk]
    · simp [hb, h1, row_loop_load, Buffers.setIndex]
  · have h2 : ¬ ((k : Int) = -1) := by omega
    by_cases h1 : k1 = k
    · simp [hb, h1, h2, Buffers.setLoad]
    · simp [hb, h1, h2, Buffers.setLoad, row_loop_load, Buffers.setIndex,
        Function.update_apply]

theorem edge_loop_localM (dm : DM α) (fs : function_space α) (n : Nat) (c : Int)
    (tmp : Nat → α) (buf : Buffers α) (m k1 l1 : Nat) :
    (forLoop m (edge_body dm fs n c tmp) buf).localM k1 l1 =
      if k1 < m ∧ l1 < n then local_entry dm fs c tmp k1 l1 else buf.localM k1 l1 := by
  induction m with
  | zero => simp [forLoop]
  | succ j ih =>
    rw [forLoop_succ, edge_body_localM, ih]
    by_cases hk : k1 = j
    · subst hk; simp
    · have h1 : (k1 < j + 1) ↔ (k1 < j) := by omega
      simp [hk, h1]

theorem edge_loop_indices (dm : DM α) (fs : function_space α) (n : Nat) (c : Int)
    (tmp : Nat → α) (buf : Buffers α) (m k1 : Nat) :
    (forLoop m (edge_body dm fs n c tmp) buf).indices k1 =
      if k1 < m then dm.cone c k1 - dm.estart else buf.indices k1 := by
  induction m with
  | zero => simp [forLoop]
  | succ j ih =>
    rw [forLoop_succ, edge_body_indices, ih]
    by_cases hk : k1 = j
    · subst hk; simp
    · have h1 : (k1 < j + 1) ↔ (k1 < j) := by omega
      simp [hk, h1]

theorem edge_loop_load (dm : DM α) (fs : function_space α) (n : Nat) (c : Int)
    (tmp : Nat → α) (buf : Buffers α) (m k1 : Nat) (hm : m ≤ n) :
    (forLoop m (edge_body dm fs n c tmp) buf).load k1 =
      if k1 < m then
        (if is_boundary dm c k1 then 0
         else load_vector_2D (dm.invBk c) fs (dm.detBk c) k1 (cell_sign dm c k1))
      else buf.load k1 := by
  induction m with
  | zero => simp [forLoop]
  | succ j ih =>
    rw [forLoop_succ, edge_body_load _ _ _ _ _ _ _ _ (by omega), ih (by omega)]
    by_cases hk : k1 = j
    · subst hk; simp
    · have h1 : (k1 < j + 1) ↔ (k1 < j) := by omega
      simp [hk, h1]

/-- The local matrix of a cell at its scatter, entry by entry. -/
theorem cell_local_localM (dm : DM α) (un : Uninit α) (fs : function_space α)
    (n : Nat) (c : Int) (buf : Buffers α) (k l : Nat) (hk : k < n) (hl : l < n) :
    (cell_local dm un fs n c buf).localM k l =
      local_entry dm fs c (cell_tmp_matrix dm un c) k l := by
  unfold cell_local
  rw [edge_loop_localM]
  simp [hk, hl]

/-- The load vector of a cell at its scatter, entry by entry. -/
theorem cell_local_load (dm : DM α) (un : Uninit α) (fs : function_space α)
    (n : Nat) (c : Int) (buf : Buffers α) (k : Nat) (hk : k < n) :
    (cell_local dm un fs n c buf).load k =
      if is_boundary dm c k then 0
      else load_vector_2D (dm.invBk c) fs (dm.detBk c) k (cell_sign dm c k) := by
  unfold cell_local
  rw [edge_loop_load _ _ _ _ _ _ _ _ (le_refl n)]
  simp [hk]

/-- The index buffer of a cell at its scatter, entry by entry. -/
theorem cell_local_indices (dm : DM α) (un : Uninit α) (fs : function_space α)
    (n : Nat) (c : Int) (buf : Buffers α) (k : Nat) (hk : k < n) :
    (cell_local dm un fs n c buf).indices k = dm.cone c k - dm.estart := by
  unfold cell_local
  rw [edge_loop_indices]
  simp [hk]

/-! ## Kernel lemmas -/

theorem forLoop_sum (f : Nat → α) (n : Nat) :
    forLoop n (fun i s => s + f i) 0 = ∑ i in Finset.range n, f i := by
  induction n with
  | zero => simp [forLoop]
  | succ m ih => rw [forLoop_succ, ih, Finset.sum_range_succ]

theorem mass_body_eq (C : Nat → α) (fs : function_space α) (k l : Nat) :
    mass_matrix_2D_body C fs k l =
      fun i s => s + weight fs i * dot2 (matVec2 C (psi fs k i)) (psi fs l i) := by
  funext i s
  have h1 : k * (fs.q.size * 2) + i * 2 = k * (2 * fs.q.size) + 2 * i := by ring
  have h2 : l * (fs.q.size * 2) + i * 2 = l * (2 * fs.q.size) + 2 * i := by ring
  have h3 : i * 3 + 2 = 3 * i + 2 := by ring
  simp only [mass_matrix_2D_body, weight, dot2, matVec2, psi, h1, h2, h3, add_zero,
    mul_one]

theorem load_body_eq (invJ : Nat → α) (fs : function_space α) (k : Nat) :
    load_vector_2D_body invJ fs k =
      fun i s => s + weight fs i * dot2 (matTVec2 invJ (psi fs k i)) (1, 1) := by
  funext i s
  have h1 : k * (fs.q.size * 2) + i * 2 = k * (2 * fs.q.size) + 2 * i := by ring
  have h3 : i * 3 + 2 = 3 * i + 2 := by ring
  simp only [load_vector_2D_body, weight, dot2, matTVec2, psi, h1, h3, add_zero,
    mul_one, one_lit]

theorem mass_eq_spec (C : Nat → α) (fs : function_space α) (detJ : α) (sk sl : Int)
    (k l : Nat) :
    mass_matrix_2D C fs detJ sk sl k l = mass_spec C fs detJ sk sl k l := by
  unfold mass_matrix_2D mass_spec
  simp only [mass_body_eq, forLoop_sum, half_eq]
  ring

theorem load_eq_spec (invJ : Nat → α) (fs : function_space α) (detJ : α) (sk : Int)
    (k : Nat) :
    load_vector_2D invJ fs detJ k sk = load_spec invJ fs detJ sk k := by
  unfold load_vector_2D load_spec
  simp only [load_body_eq, forLoop_sum, half_eq]
  ring

/-- The mass kernel reads only the four entries `C[0..3]`. -/
theorem mass_spec_congr (C D : Nat → α) (h : ∀ n, n < 4 → C n = D n)
    (fs : function_space α) (detJ : α) (sk sl : Int) (k l : Nat) :
    mass_spec C fs detJ sk sl k l = mass_spec D fs detJ sk sl k l := by
  unfold mass_spec matVec2
  rw [h 0 (by norm_num), h 1 (by norm_num), h 2 (by norm_num), h 3 (by norm_num)]

theorem invBk_invBkT_entries (B res : Nat → α) (n : Nat) (hn : n < 4) :
    _invBk_invBkT_2D B res n = invBk_invBkT_spec B n := by
  unfold _invBk_invBkT_2D invBk_invBkT_spec
  interval_cases n <;> simp [Function.update_apply, mul_comm]

theorem stiffness_eq_spec (fs : function_space α) (detJ : α) (sk sl : Int) (k l : Nat) :
    stiffness_matrix_2D fs detJ sk sl k l = stiffness_spec fs.cval detJ sk sl k l := by
  unfold stiffness_matrix_2D stiffness_spec
  simp only [half_eq]
  rw [one_div, one_div, one_div, mul_inv]
  ring

/-! ## Basis table lemmas -/

theorem nedelec_body_q (i : Nat) (fs : function_space α) :
    (nedelec_basis_body i fs).q = fs.q := rfl

theorem nedelec_loop_q (m : Nat) (fs : function_space α) :
    (forLoop m nedelec_basis_body fs).q = fs.q := by
  induction m with
  | zero => rfl
  | succ j ih => rw [forLoop_succ, nedelec_body_q, ih]

theorem nedelec_body_cval (i : Nat) (fs : function_space α) (j : Nat) :
    (nedelec_basis_body i fs).cval j =
      if 3 * i ≤ j ∧ j < 3 * i + 3 then 2 else fs.cval j := by
  unfold nedelec_basis_body
  simp only [Function.update_apply]
  split_ifs <;> first | rfl | omega

theorem nedelec_loop_cval (m : Nat) (fs : function_space α) (j : Nat) (hj : j < 3 * m) :
    (forLoop m nedelec_basis_body fs).cval j = 2 := by
  induction m with
  | zero => omega
  | succ i ih =>
    rw [forLoop_succ, nedelec_body_cval]
    by_cases h : 3 * i ≤ j
    · have h2 : j < 3 * i + 3 := by omega
      simp [h, h2]
    · have h2 : j < 3 * i := by omega
      simp [h, ih h2]

theorem nedelec_body_val (i : Nat) (fs : function_space α) (j : Nat) :
    (nedelec_basis_body i fs).val j =
      if j = 2 * (fs.q.size * 2) + i * 2 + 1 then fs.q.pw (3 * i + 0)
      else if j = 2 * (fs.q.size * 2) + i * 2 + 0 then 1 - fs.q.pw (3 * i + 1)
      else if j = 1 * (fs.q.size * 2) + i * 2 + 1 then fs.q.pw (3 * i + 0) - 1
      else if j = 1 * (fs.q.size * 2) + i * 2 + 0 then -fs.q.pw (3 * i + 1)
      else if j = 0 * (fs.q.size * 2) + i * 2 + 1 then fs.q.pw (3 * i + 0)
      else if j = 0 * (fs.q.size * 2) + i * 2 + 0 then -fs.q.pw (3 * i + 1)
      else fs.val j := by
  unfold nedelec_basis_body
  simp only [Function.update_apply]

theorem nedelec_loop_val (fs : function_space α) (m i b : Nat) (hm : m ≤ fs.q.size)
    (hi : i < m) (hb : b < 3) :
    (forLoop m nedelec_basis_body fs).val (b * (2 * fs.q.size) + 2 * i) =
        (psi_ref b (fs.q.pw (3 * i)) (fs.q.pw (3 * i + 1))).1 ∧
      (forLoop m nedelec_basis_body fs).val (b * (2 * fs.q.size) + 2 * i + 1) =
        (psi_ref b (fs.q.pw (3 * i)) (fs.q.pw (3 * i + 1))).2 := by
  induction m with
  | zero => omega
  | succ j ih =>
    rw [forLoop_succ, nedelec_body_val, nedelec_body_val, nedelec_loop_q]
    by_cases h : i = j
    · subst h
      interval_cases b
      · constructor
        · rw [if_neg (by omega), if_neg (by omega), if_neg (by omega), if_neg (by omega),
            if_neg (by omega), if_pos (by omega)]
          simp [psi_ref]
        · rw [if_neg (by omega), if_neg (by omega), if_neg (by omega), if_neg (by omega),
            if_pos (by omega)]
          simp [psi_ref]
      · constructor
        · rw [if_neg (by omega), if_neg (by omega), if_neg (by omega), if_pos (by omega)]
          simp [psi_ref]
        · rw [if_neg (by omega), if_neg (by omega), if_pos (by omega)]
          simp [psi_ref]
      · constructor
        · rw [if_neg (by omega), if_pos (by omega)]
          simp [psi_ref]
        · rw [if_pos (by omega)]
          simp [psi_ref]
    · have hlt : i < j := by omega
      have ih2 := ih (by omega) hlt
      interval_cases b <;> constructor <;>
        rw [if_neg (by omega), if_neg (by omega), if_neg (by omega), if_neg (by omega),
          if_neg (by omega), if_neg (by omega)] <;>
        first | exact ih2.1 | exact ih2.2

/-- The mass kernel with the matrix the cell loop passes equals the mass kernel with
`invBk * invBk^T`. -/
theorem mass_cell_tmp (dm : DM α) (un : Uninit α) (fs : function_space α) (c : Int)
    (detJ : α) (sk sl : Int) (k l : Nat) :
    mass_matrix_2D (cell_tmp_matrix dm un c) fs detJ sk sl k l =
      mass_matrix_2D (invBk_invBkT_spec (dm.invBk c)) fs detJ sk sl k l := by
  rw [mass_eq_spec, mass_eq_spec]
  exact mass_spec_congr _ _ (fun n hn => invBk_invBkT_entries _ _ n hn) _ _ _ _ _ _

/-! ## Evaluation on the concrete mesh -/

theorem oneSpace_val (n : Nat) :
    Example.oneSpace.val n =
      if n = 5 then 1 / 3 else if n = 4 then 2 / 3 else if n = 3 then -2 / 3
      else if n = 2 then -1 / 3 else if n = 1 then 1 / 3 else if n = 0 then -1 / 3
      else 0 := by
  simp only [Example.oneSpace, nedelec_basis, Example.oneRule, forLoop,
    nedelec_basis_body]
  norm_num [Function.update_apply]

theorem oneSpace_cval (n : Nat) :
    Example.oneSpace.cval n = if n < 3 then 2 else 0 := by
  simp only [Example.oneSpace, nedelec_basis, Example.oneRule, forLoop,
    nedelec_basis_body]
  norm_num [Function.update_apply]
  split_ifs <;> first | rfl | omega

theorem oneSpace_q : Example.oneSpace.q = Example.oneRule := rfl

theorem cell0_localM (k l : Nat) (hk : k < 3) (hl : l < 3) :
    Example.cell0.localM k l =
      local_entry Example.twoTriangles Example.oneSpace 0
        (cell_tmp_matrix Example.twoTriangles Example.zeroInit 0) k l :=
  cell_local_localM _ _ _ 3 0 _ k l hk hl

/-- The load kernel reads only the four entries `invJ[0..3]`. -/
theorem load_spec_congr (B D : Nat → α) (h : ∀ n, n < 4 → B n = D n)
    (fs : function_space α) (detJ : α) (sk : Int) (k : Nat) :
    load_spec B fs detJ sk k = load_spec D fs detJ sk k := by
  unfold load_spec matTVec2
  rw [h 0 (by norm_num), h 1 (by norm_num), h 2 (by norm_num), h 3 (by norm_num)]

theorem invBk_invBkT_spec_congr (B D : Nat → α) (h : ∀ n, n < 4 → B n = D n)
    (n : Nat) (hn : n < 4) : invBk_invBkT_spec B n = invBk_invBkT_spec D n := by
  unfold invBk_invBkT_spec
  rw [h _ (by omega), h _ (by omega), h _ (by omega), h _ (by omega)]

/-- The local entry depends on the mesh only through the data of the cell. -/
theorem local_entry_congr (dm dm2 : DM α) (un un2 : Uninit α) (fs : function_space α)
    (c : Int) (k l : Nat) (hk : k < 3) (hl : l < 3)
    (hinv : ∀ n, n < 4 → dm2.invBk c n = dm.invBk c n)
    (hdet : dm2.detBk c = dm.detBk c)
    (hsupp : ∀ j, j < 3 → dm2.supportSize (dm2.cone c j) = dm.supportSize (dm.cone c j))
    (hsign : ∀ j : Nat, j < 3 →
      dm2.signs ((c - dm2.cstart) * 3 + (j : Int)) =
        dm.signs ((c - dm.cstart) * 3 + (j : Int))) :
    local_entry dm2 fs c (cell_tmp_matrix dm2 un2 c) k l =
      local_entry dm fs c (cell_tmp_matrix dm un c) k l := by
  unfold local_entry is_boundary cell_sign
  have hm := mass_spec_congr (invBk_invBkT_spec (dm2.invBk c))
    (invBk_invBkT_spec (dm.invBk c))
    (fun n hn => invBk_invBkT_spec_congr _ _ hinv n hn) fs (dm.detBk c)
    (dm.signs ((c - dm.cstart) * 3 + k)) (dm.signs ((c - dm.cstart) * 3 + l)) k l
  simp only [hsupp k hk]
  rw [hsign k hk, hsign l hl, hdet, mass_cell_tmp, mass_cell_tmp, mass_eq_spec,
    mass_eq_spec, hm]

theorem invBk_mem_frame (mem : Nat → α) (p q a : Nat) (ha : a < q ∨ q + 4 ≤ a) :
    _invBk_invBkT_2D_mem mem p q a = mem a := by
  have h0 : a ≠ q + 0 := by omega
  have h1 : a ≠ q + 1 := by omega
  have h2 : a ≠ q + 2 := by omega
  have h3 : a ≠ q + 3 := by omega
  unfold _invBk_invBkT_2D_mem
  simp only [Function.update_apply, h0, h1, h2, h3, if_false]

theorem invBk_mem_entries (mem : Nat → α) (p q : Nat) (hdisj : p + 4 ≤ q ∨ q + 4 ≤ p) :
    _invBk_invBkT_2D_mem mem p q (q + 0) =
        mem (p + 0) * mem (p + 0) + mem (p + 1) * mem (p + 1) ∧
      _invBk_invBkT_2D_mem mem p q (q + 1) =
        mem (p + 0) * mem (p + 2) + mem (p + 1) * mem (p + 3) ∧
      _invBk_invBkT_2D_mem mem p q (q + 2) =
        mem (p + 0) * mem (p + 2) + mem (p + 1) * mem (p + 3) ∧
      _invBk_invBkT_2D_mem mem p q (q + 3) =
        mem (p + 2) * mem (p + 2) + mem (p + 3) * mem (p + 3) := by
  have hne : ∀ i j, i < 4 → j < 4 → p + i ≠ q + j := by
    intro i j hi hj; omega
  have h00 := hne 0 0 (by norm_num) (by norm_num)
  have h10 := hne 1 0 (by norm_num) (by norm_num)
  have h20 := hne 2 0 (by norm_num) (by norm_num)
  have h30 := hne 3 0 (by norm_num) (by norm_num)
  have h01 := hne 0 1 (by norm_num) (by norm_num)
  have h11 := hne 1 1 (by norm_num) (by norm_num)
  have h21 := hne 2 1 (by norm_num) (by norm_num)
  have h31 := hne 3 1 (by norm_num) (by norm_num)
  have h22 := hne 2 2 (by norm_num) (by norm_num)
  have h32 := hne 3 2 (by norm_num) (by norm_num)
  have q01 : q + 0 ≠ q + 1 := by omega
  have q02 : q + 0 ≠ q + 2 := by omega
  have q03 : q + 0 ≠ q + 3 := by omega
  have q12 : q + 1 ≠ q + 2 := by omega
  have q13 : q + 1 ≠ q + 3 := by omega
  have q23 : q + 2 ≠ q + 3 := by omega
  unfold _invBk_invBkT_2D_mem
  simp only [Function.update_apply, h00, h10, h20, h30, h01, h11, h21, h31, h22, h32,
    q01, q02, q03, q12, q13, q23, if_false, if_true, and_self]

/-! ## Gram form of the mass kernel -/

theorem sign_sq (s : Int) (h : s = 1 ∨ s = -1) : ((s : Int) : α) * (s : α) = 1 := by
  rcases h with h | h <;> rw [h] <;> norm_num

theorem stiffness_neg_signs (fs : function_space α) (detJ : α) (sk sl : Int) (k l : Nat) :
    stiffness_matrix_2D fs detJ (-sk) (-sl) k l = stiffness_matrix_2D fs detJ sk sl k l := by
  rw [stiffness_eq_spec, stiffness_eq_spec, stiffness_spec, stiffness_spec]
  push_cast
  ring

theorem mass_neg_signs (C : Nat → α) (fs : function_space α) (detJ : α) (sk sl : Int)
    (k l : Nat) :
    mass_matrix_2D C fs detJ (-sk) (-sl) k l = mass_matrix_2D C fs detJ sk sl k l := by
  rw [mass_eq_spec, mass_eq_spec, mass_spec, mass_spec]
  push_cast
  ring

theorem load_neg_sign (invJ : Nat → α) (fs : function_space α) (detJ : α) (sk : Int)
    (k : Nat) :
    load_vector_2D invJ fs detJ k (-sk) = -load_vector_2D invJ fs detJ k sk := by
  rw [load_eq_spec, load_eq_spec, load_spec, load_spec]
  push_cast
  ring

theorem stiffness_diag_sign (fs : function_space α) (detJ : α) (s t : Int) (k : Nat)
    (hs : s = 1 ∨ s = -1) (ht : t = 1 ∨ t = -1) :
    stiffness_matrix_2D fs detJ s s k k = stiffness_matrix_2D fs detJ t t k k := by
  rw [stiffness_eq_spec, stiffness_eq_spec, stiffness_spec, stiffness_spec]
  have h1 : ((s : Int) : α) * (s : α) = 1 := sign_sq s hs
  have h2 : ((t : Int) : α) * (t : α) = 1 := sign_sq t ht
  linear_combination (1 / (2 * |detJ|) * fs.cval k * fs.cval k) * h1
    - (1 / (2 * |detJ|) * fs.cval k * fs.cval k) * h2

theorem mass_diag_sign (C : Nat → α) (fs : function_space α) (detJ : α) (s t : Int)
    (k : Nat) (hs : s = 1 ∨ s = -1) (ht : t = 1 ∨ t = -1) :
    mass_matrix_2D C fs detJ s s k k = mass_matrix_2D C fs detJ t t k k := by
  rw [mass_eq_spec, mass_eq_spec, mass_spec, mass_spec]
  have h1 : ((s : Int) : α) * (s : α) = 1 := sign_sq s hs
  have h2 : ((t : Int) : α) * (t : α) = 1 := sign_sq t ht
  linear_combination
    (|detJ| * (1 / 2) * ∑ i in Finset.range fs.q.size,
      weight fs i * dot2 (matVec2 C (psi fs k i)) (psi fs k i)) * h1
    - (|detJ| * (1 / 2) * ∑ i in Finset.range fs.q.size,
      weight fs i * dot2 (matVec2 C (psi fs k i)) (psi fs k i)) * h2

/-! ## Scatter lemmas -/

theorem addMat_A (t : Target α) (i j : Int) (v : α) (r s : Int) :
    (t.addMat i j v).A r s = t.A r s + (if i = r ∧ j = s then v else 0) := by
  unfold Target.addMat
  simp only [Function.update_apply]
  by_cases hr : r = i
  · by_cases hs : s = j
    · subst hr; subst hs; simp
    · have hs2 : ¬ j = s := fun h => hs h.symm
      simp [hr, hs, hs2]
  · have hr2 : ¬ i = r := fun h => hr h.symm
    simp [hr, hr2]

theorem scatter_row_A (t : Target α) (a : Int) (idx : Nat → Int) (val : Nat → α)
    (m : Nat) (r s : Int) :
    (forLoop m (fun j t2 => Target.addMat t2 a (idx j) (val j)) t).A r s =
      t.A r s + ∑ j in Finset.range m, (if a = r ∧ idx j = s then val j else 0) := by
  induction m with
  | zero => simp [forLoop]
  | succ n ih =>
    rw [forLoop_succ, addMat_A, ih, Finset.sum_range_succ]
    ring

theorem scatter_mat_A (t : Target α) (idx : Nat → Int) (v : Nat → Nat → α)
    (m n : Nat) (r s : Int) :
    (forLoop m (fun i t1 =>
        forLoop n (fun j t2 => Target.addMat t2 (idx i) (idx j) (v i j)) t1) t).A r s =
      t.A r s + ∑ i in Finset.range m, ∑ j in Finset.range n,
        (if idx i = r ∧ idx j = s then v i j else 0) := by
  induction m with
  | zero => simp [forLoop]
  | succ n1 ih =>
    rw [forLoop_succ, scatter_row_A, ih, Finset.sum_range_succ]
    ring

theorem scatter_vec_A (t : Target α) (idx : Nat → Int) (v : Nat → α) (m : Nat) :
    (forLoop m (fun i t1 => Target.addVec t1 (idx i) (v i)) t).A = t.A := by
  induction m with
  | zero => rfl
  | succ n ih => rw [forLoop_succ]; exact ih

/-- The sum a scatter adds to a diagonal position that one local edge maps to. -/
theorem diag_sum (idx : Nat → Int) (v : Nat → Nat → α) (d : Int) (k : Nat) (hk : k < 3)
    (h : ∀ j : Nat, j < 3 → (idx j = d ↔ j = k)) :
    ∑ i in Finset.range 3, ∑ j in Finset.range 3,
      (if idx i = d ∧ idx j = d then v i j else 0) = v k k := by
  simp only [Finset.sum_range_succ, Finset.sum_range_zero, h 0 (by norm_num),
    h 1 (by norm_num), h 2 (by norm_num)]
  interval_cases k <;> simp

/-- The calls made on the targets for a two-cell mesh of triangles when every
collaborator call succeeds. -/
theorem assemble_two_cells (dm : DM α) (err : ErrorCodes) (un : Uninit α)
    (fs : function_space α) (hdim : dm.dim = 2) (hok : err.allSucceed)
    (hcells : dm.cend = dm.cstart + 2) (hcone : dm.coneSize dm.cstart = 3) :
    (assemble_system dm err un fs).2 =
      [TargetCall.MatSetValues 3 (cell_local dm un fs 3 dm.cstart un.buffers).indices
          (cell_local dm un fs 3 dm.cstart un.buffers).localM,
        TargetCall.VecSetValues 3 (cell_local dm un fs 3 dm.cstart un.buffers).indices
          (cell_local dm un fs 3 dm.cstart un.buffers).load,
        TargetCall.MatSetValues 3
          (cell_local dm un fs 3 (dm.cstart + 1)
            (cell_local dm un fs 3 dm.cstart un.buffers)).indices
          (cell_local dm un fs 3 (dm.cstart + 1)
            (cell_local dm un fs 3 dm.cstart un.buffers)).localM,
        TargetCall.VecSetValues 3
          (cell_local dm un fs 3 (dm.cstart + 1)
            (cell_local dm un fs 3 dm.cstart un.buffers)).indices
          (cell_local dm un fs 3 (dm.cstart + 1)
            (cell_local dm un fs 3 dm.cstart un.buffers)).load,
        TargetCall.MatAssemblyBegin, TargetCall.MatAssemblyEnd,
        TargetCall.VecAssemblyBegin, TargetCall.VecAssemblyEnd] := by
  obtain ⟨⟨h1, h2, h3, h4, h5⟩, hc⟩ := hok
  have hn : (dm.cend - dm.cstart).toNat = 2 := by
    rw [hcells]
    have : dm.cstart + 2 - dm.cstart = 2 := by ring
    rw [this]
    rfl
  obtain ⟨a1, a2, a3, a4⟩ := hc dm.cstart
  obtain ⟨b1, b2, b3, b4⟩ := hc (dm.cstart + 1)
  unfold assemble_system
  simp only [h1, h2, h3, h4, h5, hdim, hn, hcone, cell_loop, a1, a2, a3, a4, b1, b2, b3, b4,
    ne_eq, not_true_eq_false, if_false, if_true, List.nil_append, List.cons_append,
    Int.toNat_ofNat]
  rfl

end Lemmas

/-! ## The local matrix and load vector of a cell -/

section CellClaims

variable {α : Type} [LinearOrderedField α]

/-- C1 (symmetry law), evaluated on cell `0` of the two-triangle mesh, whose local edge
`1` is interior while local edge `2` lies on the boundary: the interior row keeps its
stiffness-plus-mass value in the column of the boundary edge, `local[1][2] = 16/9`,
while the boundary row holds `local[2][1] = 0`; the scattered local matrix is not
symmetric. -/
theorem C1_local_matrix_asymmetric_at_boundary_column :
    ¬ is_boundary Example.twoTriangles 0 1 ∧ is_boundary Example.twoTriangles 0 2 ∧
      Example.cell0.localM 1 2 = 16 / 9 ∧ Example.cell0.localM 2 1 = 0 ∧
      Example.cell0.localM 1 2 ≠ Example.cell0.localM 2 1 := by
  have h12 : Example.cell0.localM 1 2 = 16 / 9 := by
    rw [cell0_localM 1 2 (by norm_num) (by norm_num), local_entry, mass_eq_spec]
    simp only [is_boundary, cell_sign, Example.twoTriangles, stiffness_matrix_2D,
      mass_spec, oneSpace_q, Example.oneRule, Finset.sum_range_one, weight, dot2,
      matVec2, psi, oneSpace_val, oneSpace_cval, cell_tmp_matrix, _invBk_invBkT_2D,
      Function.update_apply]
    norm_num
  have h21 : Example.cell0.localM 2 1 = 0 := by
    rw [cell0_localM 2 1 (by norm_num) (by norm_num), local_entry]
    simp [is_boundary, Example.twoTriangles]
  refine ⟨?_, ?_, h12, h21, ?_⟩
  · simp [is_boundary, Example.twoTriangles]
  · simp [is_boundary, Example.twoTriangles]
  · rw [h12, h21]; norm_num

/-- C2, as stated, fails: on cell `0` of the two-triangle mesh the local edges `0` and
`2` are both boundary edges, and the local matrix holds `local[0][2] = 0`, not `1`. -/
theorem C2_counterexample_two_boundary_edges :
    is_boundary Example.twoTriangles 0 0 ∧ is_boundary Example.twoTriangles 0 2 ∧
      Example.cell0.localM 0 2 = 0 ∧ Example.cell0.localM 0 2 ≠ 1 := by
  have h02 : Example.cell0.localM 0 2 = 0 := by
    rw [cell0_localM 0 2 (by norm_num) (by norm_num), local_entry]
    simp [is_boundary, Example.twoTriangles]
  refine ⟨?_, ?_, h02, ?_⟩
  · simp [is_boundary, Example.twoTriangles]
  · simp [is_boundary, Example.twoTriangles]
  · rw [h02]; norm_num

/-- C2, amended: for a cell with 3 local edges and local edges `k`, `l` that are both
boundary edges, the local matrix at the scatter has `local[k][l] = 1` when `k = l` and
`local[k][l] = 0` when `k ≠ l`, and the load vector has `load[k] = load[l] = 0`,
whatever the buffers held before the cell. -/
theorem C2_both_boundary_entries (dm : DM α) (un : Uninit α) (fs : function_space α)
    (c : Int) (buf : Buffers α) (k l : Nat) (hk : k < 3) (hl : l < 3)
    (hbk : is_boundary dm c k) (hbl : is_boundary dm c l) :
    (cell_local dm un fs 3 c buf).localM k l = (if k = l then 1 else 0) ∧
      (cell_local dm un fs 3 c buf).load k = 0 ∧
      (cell_local dm un fs 3 c buf).load l = 0 := by
  refine ⟨?_, ?_, ?_⟩
  · rw [cell_local_localM dm un fs 3 c buf k l hk hl, local_entry, if_pos hbk]
    by_cases h : k = l
    · simp [h]
    · have h2 : ¬ l = k := fun e => h e.symm
      simp [h, h2]
  · rw [cell_local_load dm un fs 3 c buf k hk, if_pos hbk]
  · rw [cell_local_load dm un fs 3 c buf l hl, if_pos hbl]

/-- Witness for `C2_both_boundary_entries`: cell `0` of the two-triangle mesh, local
edges `0` and `2`. -/
theorem C2_both_boundary_entries_witness :
    (0 < 3 ∧ 2 < 3 ∧ is_boundary Example.twoTriangles 0 0 ∧
      is_boundary Example.twoTriangles 0 2) ∧
    ((cell_local Example.twoTriangles Example.zeroInit Example.oneSpace 3 0
        Example.zeroInit.buffers).localM 0 2 = (if 0 = 2 then 1 else 0) ∧
      (cell_local Example.twoTriangles Example.zeroInit Example.oneSpace 3 0
        Example.zeroInit.buffers).load 0 = 0 ∧
      (cell_local Example.twoTriangles Example.zeroInit Example.oneSpace 3 0
        Example.zeroInit.buffers).load 2 = 0) :=
  ⟨⟨by decide, by decide, by simp [is_boundary, Example.twoTriangles],
      by simp [is_boundary, Example.twoTriangles]⟩,
    C2_both_boundary_entries Example.twoTriangles Example.zeroInit Example.oneSpace 0
      Example.zeroInit.buffers 0 2 (by decide) (by decide)
      (by simp [is_boundary, Example.twoTriangles])
      (by simp [is_boundary, Example.twoTriangles])⟩

/-- C3, evaluated on cell `0` of the two-triangle mesh at the ordered pair `(1, 0)`:
local edge `1` is interior and local edge `0` is a boundary edge, so exactly one of the
two is boundary, yet the local matrix holds `local[1][0] = 35/18`, not `0`. -/
theorem C3_interior_row_boundary_column_nonzero :
    ¬ is_boundary Example.twoTriangles 0 1 ∧ is_boundary Example.twoTriangles 0 0 ∧
      Example.cell0.localM 1 0 = 35 / 18 ∧ Example.cell0.localM 1 0 ≠ 0 := by
  have h10 : Example.cell0.localM 1 0 = 35 / 18 := by
    rw [cell0_localM 1 0 (by norm_num) (by norm_num), local_entry, mass_eq_spec]
    simp only [is_boundary, cell_sign, Example.twoTriangles, stiffness_matrix_2D,
      mass_spec, oneSpace_q, Example.oneRule, Finset.sum_range_one, weight, dot2,
      matVec2, psi, oneSpace_val, oneSpace_cval, cell_tmp_matrix, _invBk_invBkT_2D,
      Function.update_apply]
    norm_num
  refine ⟨?_, ?_, h10, ?_⟩
  · simp [is_boundary, Example.twoTriangles]
  · simp [is_boundary, Example.twoTriangles]
  · rw [h10]; norm_num

/-- C4: for a cell with 3 local edges and every local edge `k`, the load entry at the
scatter is `0` if `k` is a boundary edge, and is
`load_vector_2D(invBk, fs, detBk, k, sign_k)` with `sign_k = signs[3*(c - cstart) + k]`
if `k` is not a boundary edge, whatever the buffers held before the cell. -/
theorem C4_load_entries (dm : DM α) (un : Uninit α) (fs : function_space α)
    (c : Int) (buf : Buffers α) (k : Nat) (hk : k < 3) :
    (is_boundary dm c k → (cell_local dm un fs 3 c buf).load k = 0) ∧
    (¬ is_boundary dm c k → (cell_local dm un fs 3 c buf).load k =
      load_vector_2D (dm.invBk c) fs (dm.detBk c) k
        (dm.signs ((c - dm.cstart) * 3 + k))) := by
  rw [cell_local_load dm un fs 3 c buf k hk]
  constructor
  · intro hb; rw [if_pos hb]
  · intro hb; rw [if_neg hb]; rfl

/-- Witness for `C4_load_entries`: cell `0` of the two-triangle mesh, local edge `1`. -/
theorem C4_load_entries_witness :
    1 < 3 ∧
    ((is_boundary Example.twoTriangles 0 1 →
        (cell_local Example.twoTriangles Example.zeroInit Example.oneSpace 3 0
          Example.zeroInit.buffers).load 1 = 0) ∧
      (¬ is_boundary Example.twoTriangles 0 1 →
        (cell_local Example.twoTriangles Example.zeroInit Example.oneSpace 3 0
          Example.zeroInit.buffers).load 1 =
        load_vector_2D (Example.twoTriangles.invBk 0) Example.oneSpace
          (Example.twoTriangles.detBk 0) 1
          (Example.twoTriangles.signs ((0 - Example.twoTriangles.cstart) * 3 +
            ((1 : Nat) : Int))))) :=
  ⟨by decide, C4_load_entries Example.twoTriangles Example.zeroInit Example.oneSpace 0
    Example.zeroInit.buffers 1 (by decide)⟩

/-- C5: for a cell with 3 local edges and every ordered pair `(k, l)` of local edges
neither of which is a boundary edge, the local matrix at the scatter has
`local[k][l] = stiffness_matrix_2D(fs, detBk, sign_k, sign_l, k, l) +
mass_matrix_2D(C, fs, detBk, sign_k, sign_l, k, l)` with `C = invBk * invBk^T` of that
cell and the signs read at `signs[3*(c - cstart) + k]` and `signs[3*(c - cstart) + l]`. -/
theorem C5_interior_pair_entry (dm : DM α) (un : Uninit α) (fs : function_space α)
    (c : Int) (buf : Buffers α) (k l : Nat) (hk : k < 3) (hl : l < 3)
    (hbk : ¬ is_boundary dm c k) (hbl : ¬ is_boundary dm c l) :
    (cell_local dm un fs 3 c buf).localM k l =
      stiffness_matrix_2D fs (dm.detBk c) (dm.signs ((c - dm.cstart) * 3 + k))
        (dm.signs ((c - dm.cstart) * 3 + l)) k l
      + mass_matrix_2D (invBk_invBkT_spec (dm.invBk c)) fs (dm.detBk c)
        (dm.signs ((c - dm.cstart) * 3 + k)) (dm.signs ((c - dm.cstart) * 3 + l)) k l := by
  have _ := hbl
  rw [cell_local_localM dm un fs 3 c buf k l hk hl, local_entry, if_neg hbk,
    mass_cell_tmp]
  rfl

/-- Witness for `C5_interior_pair_entry`: cell `0` of the two-triangle mesh, whose only
interior local edge is `1`. -/
theorem C5_interior_pair_entry_witness :
    (1 < 3 ∧ ¬ is_boundary Example.twoTriangles 0 1) ∧
    (cell_local Example.twoTriangles Example.zeroInit Example.oneSpace 3 0
        Example.zeroInit.buffers).localM 1 1 =
      stiffness_matrix_2D Example.oneSpace (Example.twoTriangles.detBk 0)
        (Example.twoTriangles.signs ((0 - Example.twoTriangles.cstart) * 3 +
          ((1 : Nat) : Int)))
        (Example.twoTriangles.signs ((0 - Example.twoTriangles.cstart) * 3 +
          ((1 : Nat) : Int))) 1 1
      + mass_matrix_2D (invBk_invBkT_spec (Example.twoTriangles.invBk 0))
        Example.oneSpace (Example.twoTriangles.detBk 0)
        (Example.twoTriangles.signs ((0 - Example.twoTriangles.cstart) * 3 +
          ((1 : Nat) : Int)))
        (Example.twoTriangles.signs ((0 - Example.twoTriangles.cstart) * 3 +
          ((1 : Nat) : Int))) 1 1 :=
  ⟨⟨by decide, by simp [is_boundary, Example.twoTriangles]⟩,
    C5_interior_pair_entry Example.twoTriangles Example.zeroInit Example.oneSpace 0
      Example.zeroInit.buffers 1 1 (by decide) (by decide)
      (by simp [is_boundary, Example.twoTriangles])
      (by simp [is_boundary, Example.twoTriangles])⟩

end CellClaims

/-! ## Error paths of `assemble_system` -/

section DriverClaims

variable {α : Type} [LinearOrderedField α]

theorem cell_loop_ok (dm : DM α) (err : ErrorCodes) (un : Uninit α)
    (fs : function_space α) (nedges : Int)
    (h : ∀ c : Int, err.computeCellGeometry c = 0 ∧ err.getCone c = 0 ∧
      err.matSetValues c = 0 ∧ err.vecSetValues c = 0)
    (n : Nat) (c : Int) (buf : Buffers α) (trace : List (TargetCall α)) :
    (cell_loop dm err un fs nedges n c buf trace).1 = 0 := by
  induction n generalizing c buf trace with
  | zero => rfl
  | succ m ih =>
    obtain ⟨h1, h2, h3, h4⟩ := h c
    simp only [cell_loop, h1, h2, h3, h4, ne_eq, not_true_eq_false, if_false]
    exact ih _ _ _

theorem applyCalls_nil (t : Target α) : applyCalls ([] : List (TargetCall α)) t = t := rfl

/-- C6, as stated, fails: on the two-triangle mesh reported with dimension 3, when the
query `DMPlexGetConeSize` returns the error code 63, `assemble_system` returns 63 and
not the unsupported-dimension code 56. -/
theorem C6_counterexample_failing_query :
    Example.threeDim.dim ≠ 2 ∧
      (assemble_system Example.threeDim Example.coneSizeFails Example.zeroInit
        Example.oneSpace).1 = 63 ∧
      (assemble_system Example.threeDim Example.coneSizeFails Example.zeroInit
        Example.oneSpace).1 ≠ 56 := by
  refine ⟨by decide, by rfl, ?_⟩
  have h : (assemble_system Example.threeDim Example.coneSizeFails Example.zeroInit
      Example.oneSpace).1 = 63 := by rfl
  rw [h]; decide

/-- C6, amended: for every mesh whose topological dimension is not 2,
`assemble_system` returns a non-zero error code: the code of the first failing query
among the five made before the dimension test, in the order `DMGetDimension`,
`DMPlexGetHeightStratum` (height 0), `DMPlexGetConeSize`, `DMPlexGetHeightStratum`
(height 1), `DMGetApplicationContext`, and the unsupported-dimension code 56 when all
five succeed; it makes no call at all on the targets (no `MatSetValues`/`VecSetValues`,
no `MatAssembly*`/`VecAssembly*`), so `A` and `b` are left as they were; for dimension 2
with all collaborator calls succeeding it returns 0. -/
theorem C6_unsupported_dimension (dm : DM α) (err : ErrorCodes) (un : Uninit α)
    (fs : function_space α) :
    (dm.dim ≠ 2 →
      (assemble_system dm err un fs).1 ≠ 0 ∧
      (err.getDimension ≠ 0 → (assemble_system dm err un fs).1 = err.getDimension) ∧
      (err.getDimension = 0 → err.getHeightStratum0 ≠ 0 →
        (assemble_system dm err un fs).1 = err.getHeightStratum0) ∧
      (err.getDimension = 0 → err.getHeightStratum0 = 0 → err.getConeSize ≠ 0 →
        (assemble_system dm err un fs).1 = err.getConeSize) ∧
      (err.getDimension = 0 → err.getHeightStratum0 = 0 → err.getConeSize = 0 →
        err.getHeightStratum1 ≠ 0 →
        (assemble_system dm err un fs).1 = err.getHeightStratum1) ∧
      (err.getDimension = 0 → err.getHeightStratum0 = 0 → err.getConeSize = 0 →
        err.getHeightStratum1 = 0 → err.getApplicationContext ≠ 0 →
        (assemble_system dm err un fs).1 = err.getApplicationContext) ∧
      (err.preliminariesSucceed → (assemble_system dm err un fs).1 = 56) ∧
      (assemble_system dm err un fs).2 = [] ∧
      ∀ t : Target α, applyCalls (assemble_system dm err un fs).2 t = t) ∧
    (dm.dim = 2 → err.allSucceed → (assemble_system dm err un fs).1 = 0) := by
  constructor
  · intro hdim
    have htrace : (assemble_system dm err un fs).2 = [] := by
      unfold assemble_system
      split_ifs <;> rfl
    refine ⟨?_, ?_, ?_, ?_, ?_, ?_, ?_, htrace, ?_⟩
    · unfold assemble_system
      split_ifs <;> simp_all
    · intro h1
      unfold assemble_system
      simp [h1]
    · intro h1 h2
      unfold assemble_system
      simp [h1, h2]
    · intro h1 h2 h3
      unfold assemble_system
      simp [h1, h2, h3]
    · intro h1 h2 h3 h4
      unfold assemble_system
      simp [h1, h2, h3, h4]
    · intro h1 h2 h3 h4 h5
      unfold assemble_system
      simp [h1, h2, h3, h4, h5]
    · rintro ⟨h1, h2, h3, h4, h5⟩
      unfold assemble_system
      simp [h1, h2, h3, h4, h5, hdim]
    · intro t
      rw [htrace]
      rfl
  · rintro hdim ⟨⟨h1, h2, h3, h4, h5⟩, hcells⟩
    have hloop := cell_loop_ok dm err un fs (dm.coneSize dm.cstart) hcells
      (dm.cend - dm.cstart).toNat dm.cstart un.buffers []
    unfold assemble_system
    simp [h1, h2, h3, h4, h5, hdim, hloop]

/-- Witness for `C6_unsupported_dimension`: the two-triangle mesh reported with
dimension 3, once with every collaborator call succeeding (code 56, no target call) and
once with the second query failing with 11 and the fifth with 15 (code 11); and the
two-triangle mesh itself, every collaborator call succeeding (code 0). -/
theorem C6_unsupported_dimension_witness :
    (Example.threeDim.dim ≠ 2 ∧ Example.allOk.preliminariesSucceed ∧
      Example.twoQueriesFail.getDimension = 0 ∧
      Example.twoQueriesFail.getHeightStratum0 ≠ 0 ∧
      Example.twoTriangles.dim = 2 ∧ Example.allOk.allSucceed) ∧
    (assemble_system Example.threeDim Example.allOk Example.zeroInit
        Example.oneSpace).1 = 56 ∧
    (assemble_system Example.threeDim Example.allOk Example.zeroInit
        Example.oneSpace).2 = [] ∧
    (assemble_system Example.threeDim Example.twoQueriesFail Example.zeroInit
        Example.oneSpace).1 = 11 ∧
    (assemble_system Example.twoTriangles Example.allOk Example.zeroInit
        Example.oneSpace).1 = 0 :=
  have hp : Example.allOk.preliminariesSucceed := ⟨rfl, rfl, rfl, rfl, rfl⟩
  have ha : Example.allOk.allSucceed := ⟨hp, fun _ => ⟨rfl, rfl, rfl, rfl⟩⟩
  have h3 : Example.threeDim.dim ≠ 2 := by decide
  have h2 : Example.twoTriangles.dim = 2 := rfl
  have hq1 : Example.twoQueriesFail.getDimension = 0 := rfl
  have hq2 : Example.twoQueriesFail.getHeightStratum0 ≠ 0 := by decide
  ⟨⟨h3, hp, hq1, hq2, h2, ha⟩,
    ((C6_unsupported_dimension Example.threeDim Example.allOk Example.zeroInit
      Example.oneSpace).1 h3).2.2.2.2.2.2.1 hp,
    ((C6_unsupported_dimension Example.threeDim Example.allOk Example.zeroInit
      Example.oneSpace).1 h3).2.2.2.2.2.2.2.1,
    ((C6_unsupported_dimension Example.threeDim Example.twoQueriesFail Example.zeroInit
      Example.oneSpace).1 h3).2.2.1 hq1 hq2,
    (C6_unsupported_dimension Example.twoTriangles Example.allOk Example.zeroInit
      Example.oneSpace).2 h2 ha⟩

end DriverClaims

/-! ## Kernel formulas -/

section KernelClaims

variable {α : Type} [LinearOrderedField α]

/-- C7: when `nedelec_basis` succeeds on a quadrature rule with at least one point, the
curl table it builds holds `2` at the indices `k`, `l` in `{0,1,2}` that the stiffness
kernel reads, and with `detBk = 1` and `sign_k = sign_l = +1` the kernel
`stiffness_matrix_2D` returns exactly `2` for every such `k`, `l`. -/
theorem C7_reference_stiffness (generate_quad : Int → quadrature α)
    (ierr_val ierr_cval : Int) (val0 cval0 : Nat → α) (fspace : function_space α)
    (q_order : Int) (k l : Nat)
    (hok : (nedelec_basis generate_quad ierr_val ierr_cval val0 cval0 fspace q_order).1 = 0)
    (hM : 0 < (generate_quad q_order).size) (hk : k < 3) (hl : l < 3) :
    (nedelec_basis generate_quad ierr_val ierr_cval val0 cval0 fspace q_order).2.cval k = 2 ∧
    (nedelec_basis generate_quad ierr_val ierr_cval val0 cval0 fspace q_order).2.cval l = 2 ∧
    stiffness_matrix_2D
      (nedelec_basis generate_quad ierr_val ierr_cval val0 cval0 fspace q_order).2
      1 1 1 k l = 2 := by
  have hv : ierr_val = 0 := by
    by_contra h
    simp [nedelec_basis, h] at hok
  have hc : ierr_cval = 0 := by
    by_contra h
    simp [nedelec_basis, hv, h] at hok
  have hcval : ∀ j, j < 3 →
      (nedelec_basis generate_quad ierr_val ierr_cval val0 cval0 fspace q_order).2.cval j
        = 2 := by
    intro j hj
    simp only [nedelec_basis, hv, hc, ne_eq, not_true_eq_false, if_false]
    exact nedelec_loop_cval _ _ j (by omega)
  refine ⟨hcval k hk, hcval l hl, ?_⟩
  unfold stiffness_matrix_2D
  rw [hcval k hk, hcval l hl]
  norm_num

/-- Witness for `C7_reference_stiffness`: the one-point rule, both allocations
succeeding, `k = 0` and `l = 2`. -/
theorem C7_reference_stiffness_witness :
    ((nedelec_basis (fun _ => Example.oneRule) 0 0 (fun _ => (0 : ℚ)) (fun _ => 0)
        ⟨fun _ => 0, fun _ => 0, 0, ⟨0, fun _ => 0⟩⟩ 1).1 = 0 ∧
      0 < ((fun _ => Example.oneRule) (1 : Int)).size ∧ 0 < 3 ∧ 2 < 3) ∧
    stiffness_matrix_2D
      (nedelec_basis (fun _ => Example.oneRule) 0 0 (fun _ => (0 : ℚ)) (fun _ => 0)
        ⟨fun _ => 0, fun _ => 0, 0, ⟨0, fun _ => 0⟩⟩ 1).2 1 1 1 0 2 = 2 :=
  ⟨⟨rfl, by decide, by decide, by decide⟩,
    (C7_reference_stiffness (fun _ => Example.oneRule) 0 0 (fun _ => (0 : ℚ))
      (fun _ => 0) ⟨fun _ => 0, fun _ => 0, 0, ⟨0, fun _ => 0⟩⟩ 1 0 2 rfl (by decide)
      (by decide) (by decide)).2.2⟩

/-- C8: for every `detBk ≠ 0`, all signs, every curl table and all `k`, `l`,
`stiffness_matrix_2D` returns `(1 / (2*|detBk|)) * sign_k * sign_l * cval[k] * cval[l]`,
and two function spaces with the same curl table (whatever their quadrature rules and
value tables) give the same result. -/
theorem C8_stiffness_formula (fs fs2 : function_space α) (detBk : α)
    (sign_k sign_l : Int) (k l : Nat) (hdet : detBk ≠ 0) (hcval : fs2.cval = fs.cval) :
    stiffness_matrix_2D fs detBk sign_k sign_l k l =
      1 / (2 * |detBk|) * (sign_k : α) * (sign_l : α) * fs.cval k * fs.cval l ∧
    stiffness_matrix_2D fs2 detBk sign_k sign_l k l =
      stiffness_matrix_2D fs detBk sign_k sign_l k l := by
  have _ := hdet
  constructor
  · rw [stiffness_eq_spec]; rfl
  · rw [stiffness_eq_spec, stiffness_eq_spec, hcval]

/-- Witness for `C8_stiffness_formula`: `detBk = -2`, signs `-1` and `+1`, the tables of
the one-point rule against a function space with the same curl table only. -/
theorem C8_stiffness_formula_witness :
    ((-2 : ℚ) ≠ 0 ∧
      (⟨fun _ => 7, Example.oneSpace.cval, 0, ⟨0, fun _ => 5⟩⟩ : function_space ℚ).cval
        = Example.oneSpace.cval) ∧
    stiffness_matrix_2D Example.oneSpace (-2 : ℚ) (-1) 1 0 1 =
      1 / (2 * |(-2 : ℚ)|) * (((-1 : Int)) : ℚ) * (((1 : Int)) : ℚ)
        * Example.oneSpace.cval 0 * Example.oneSpace.cval 1 ∧
    stiffness_matrix_2D
        (⟨fun _ => 7, Example.oneSpace.cval, 0, ⟨0, fun _ => 5⟩⟩ : function_space ℚ)
        (-2 : ℚ) (-1) 1 0 1 =
      stiffness_matrix_2D Example.oneSpace (-2 : ℚ) (-1) 1 0 1 :=
  ⟨⟨by norm_num, rfl⟩,
    C8_stiffness_formula Example.oneSpace
      (⟨fun _ => 7, Example.oneSpace.cval, 0, ⟨0, fun _ => 5⟩⟩ : function_space ℚ)
      (-2 : ℚ) (-1) 1 0 1 (by norm_num) rfl⟩

/-- C9: for every quadrature rule, value table, row-major 2x2 matrix `C`, `detBk`, signs
and `k`, `l`, `mass_matrix_2D` returns
`|detBk| * sign_k * sign_l * 0.5 * sum_{i<M} w_i * ((C * psi_k(i)) . psi_l(i))`; the
matrix the cell loop passes holds `invBk * invBk^T` in its four entries; and for a cell
with 3 local edges the entry of a non-boundary row is the stiffness value plus that mass
formula taken at `C = invBk * invBk^T`. -/
theorem C9_mass_formula (dm : DM α) (un : Uninit α) (fs : function_space α) (c : Int)
    (buf : Buffers α) (C : Nat → α) (detBk : α) (sign_k sign_l : Int) (k l : Nat)
    (hk : k < 3) (hl : l < 3) (hbk : ¬ is_boundary dm c k) :
    mass_matrix_2D C fs detBk sign_k sign_l k l =
      |detBk| * (sign_k : α) * (sign_l : α) * (1 / 2) *
        ∑ i in Finset.range fs.q.size,
          weight fs i * dot2 (matVec2 C (psi fs k i)) (psi fs l i) ∧
    (∀ n, n < 4 → cell_tmp_matrix dm un c n = invBk_invBkT_spec (dm.invBk c) n) ∧
    (cell_local dm un fs 3 c buf).localM k l =
      stiffness_matrix_2D fs (dm.detBk c) (dm.signs ((c - dm.cstart) * 3 + k))
        (dm.signs ((c - dm.cstart) * 3 + l)) k l
      + mass_spec (invBk_invBkT_spec (dm.invBk c)) fs (dm.detBk c)
        (dm.signs ((c - dm.cstart) * 3 + k)) (dm.signs ((c - dm.cstart) * 3 + l)) k l := by
  refine ⟨?_, ?_, ?_⟩
  · rw [mass_eq_spec]; rfl
  · intro n hn
    exact invBk_invBkT_entries _ _ n hn
  · rw [cell_local_localM dm un fs 3 c buf k l hk hl, local_entry, if_neg hbk,
      mass_cell_tmp, mass_eq_spec]
    rfl

/-- Witness for `C9_mass_formula`: cell `0` of the two-triangle mesh and its interior
local edge `1`, with the kernel taken at `C = (1, 2; 3, 4)`, `detBk = -2`. -/
theorem C9_mass_formula_witness :
    (1 < 3 ∧ ¬ is_boundary Example.twoTriangles 0 1) ∧
    mass_matrix_2D (fun n => ((n : ℚ) + 1)) Example.oneSpace (-2 : ℚ) (-1) 1 1 1 =
      |(-2 : ℚ)| * (((-1 : Int)) : ℚ) * (((1 : Int)) : ℚ) * (1 / 2) *
        ∑ i in Finset.range Example.oneSpace.q.size,
          weight Example.oneSpace i *
            dot2 (matVec2 (fun n => ((n : ℚ) + 1)) (psi Example.oneSpace 1 i))
              (psi Example.oneSpace 1 i) :=
  ⟨⟨by decide, by simp [is_boundary, Example.twoTriangles]⟩,
    (C9_mass_formula Example.twoTriangles Example.zeroInit Example.oneSpace 0
      Example.zeroInit.buffers (fun n => ((n : ℚ) + 1)) (-2 : ℚ) (-1) 1 1 1
      (by decide) (by decide) (by simp [is_boundary, Example.twoTriangles])).1⟩

/-- C10: for every quadrature rule, value table, row-major 2x2 matrix `invBk`, `detBk`,
sign and `k`, `load_vector_2D` returns
`|detBk| * sign_k * 0.5 * sum_{i<M} w_i * ((invBk^T * psi_k(i)) . F)` with `F = (1, 1)`,
where `invBk^T * psi` applies the transpose of `invBk` to the 2-vector `psi_k(i)`. -/
theorem C10_load_formula (invBk : Nat → α) (fs : function_space α) (detBk : α)
    (sign_k : Int) (k : Nat) :
    load_vector_2D invBk fs detBk k sign_k =
      |detBk| * (sign_k : α) * (1 / 2) *
        ∑ i in Finset.range fs.q.size,
          weight fs i * dot2 (matTVec2 invBk (psi fs k i)) (1, 1) := by
  rw [load_eq_spec]; rfl

end KernelClaims

/-! ## Basis tables -/

section BasisClaims

variable {α : Type} [LinearOrderedField α]

/-- C11: when `nedelec_basis` succeeds on a rule with `M` points `(x_i, y_i, w_i)`, then
for every `i < M` the value table holds `psi0 = (-y_i, x_i)` at `val[0*2M + 2i .. +1]`,
`psi1 = (-y_i, x_i - 1)` at `val[1*2M + 2i .. +1]` and `psi2 = (1 - y_i, x_i)` at
`val[2*2M + 2i .. +1]`, every curl entry the loop writes (indices below `3M`) is `2`,
and `nbasis = 3`; the quadrature bodies of `mass_matrix_2D` and `load_vector_2D` read
basis `k` at point `i` at exactly the offsets `k*(2M) + 2i` and `k*(2M) + 2i + 1`. -/
theorem C11_basis_table (generate_quad : Int → quadrature α)
    (ierr_val ierr_cval : Int) (val0 cval0 : Nat → α) (fspace : function_space α)
    (q_order : Int) (fs : function_space α) (M i : Nat) (x y : α)
    (hfs : fs = (nedelec_basis generate_quad ierr_val ierr_cval val0 cval0 fspace
      q_order).2)
    (hok : (nedelec_basis generate_quad ierr_val ierr_cval val0 cval0 fspace q_order).1 = 0)
    (hM : M = (generate_quad q_order).size) (hi : i < M)
    (hx : x = (generate_quad q_order).pw (3 * i))
    (hy : y = (generate_quad q_order).pw (3 * i + 1)) :
    (fs.val (0 * (2 * M) + 2 * i) = -y ∧ fs.val (0 * (2 * M) + 2 * i + 1) = x) ∧
    (fs.val (1 * (2 * M) + 2 * i) = -y ∧ fs.val (1 * (2 * M) + 2 * i + 1) = x - 1) ∧
    (fs.val (2 * (2 * M) + 2 * i) = 1 - y ∧ fs.val (2 * (2 * M) + 2 * i + 1) = x) ∧
    (∀ j, j < 3 * M → fs.cval j = 2) ∧
    fs.nbasis = 3 ∧
    fs.q.size = M ∧
    (∀ (C : Nat → α) (k l : Nat) (s : α),
      mass_matrix_2D_body C fs k l i s =
        s + fs.q.pw (3 * i + 2) *
          dot2 (matVec2 C (fs.val (k * (2 * M) + 2 * i), fs.val (k * (2 * M) + 2 * i + 1)))
            (fs.val (l * (2 * M) + 2 * i), fs.val (l * (2 * M) + 2 * i + 1))) ∧
    (∀ (invJ : Nat → α) (k : Nat) (s : α),
      load_vector_2D_body invJ fs k i s =
        s + fs.q.pw (3 * i + 2) *
          dot2 (matTVec2 invJ
            (fs.val (k * (2 * M) + 2 * i), fs.val (k * (2 * M) + 2 * i + 1))) (1, 1)) := by
  have hv : ierr_val = 0 := by
    by_contra h
    simp [nedelec_basis, h] at hok
  have hc : ierr_cval = 0 := by
    by_contra h
    simp [nedelec_basis, hv, h] at hok
  have hq : fs.q.size = M := by
    rw [hfs, hM]
    simp only [nedelec_basis, hv, hc, ne_eq, not_true_eq_false, if_false]
    rw [nedelec_loop_q]
  have hval : ∀ b, b < 3 →
      fs.val (b * (2 * M) + 2 * i) = (psi_ref b x y).1 ∧
      fs.val (b * (2 * M) + 2 * i + 1) = (psi_ref b x y).2 := by
    intro b hb
    have key := nedelec_loop_val
      ({ ({ ({ fspace with q := generate_quad q_order } : function_space α) with
          val := val0 } : function_space α) with cval := cval0 } : function_space α)
      M i b (le_of_eq hM) hi hb
    rw [hfs, hM, hx, hy]
    simp only [nedelec_basis, hv, hc, ne_eq, not_true_eq_false, if_false]
    rw [hM] at key
    exact key
  have h0 := hval 0 (by norm_num)
  have h1 := hval 1 (by norm_num)
  have h2 := hval 2 (by norm_num)
  simp only [psi_ref, one_ne_zero, if_true, if_false, OfNat.ofNat_ne_zero,
    OfNat.ofNat_ne_one] at h0 h1 h2
  refine ⟨h0, h1, h2, ?_, ?_, hq, ?_, ?_⟩
  · intro j hj
    rw [hfs]
    simp only [nedelec_basis, hv, hc, ne_eq, not_true_eq_false, if_false]
    exact nedelec_loop_cval _ _ j (by rw [← hM]; exact hj)
  · rw [hfs]
    simp only [nedelec_basis, hv, hc, ne_eq, not_true_eq_false, if_false]
  · intro C k l s
    rw [mass_body_eq]
    simp only [weight, psi, hq]
  · intro invJ k s
    rw [load_body_eq]
    simp only [weight, psi, hq]

/-- Witness for `C11_basis_table`: the one-point rule `(1/3, 1/3, 1)`, both allocations
succeeding, point `i = 0`. -/
theorem C11_basis_table_witness :
    (Example.oneSpace = (nedelec_basis (fun _ => Example.oneRule) 0 0 (fun _ => (0 : ℚ))
        (fun _ => 0) ⟨fun _ => 0, fun _ => 0, 0, ⟨0, fun _ => 0⟩⟩ 1).2 ∧
      (nedelec_basis (fun _ => Example.oneRule) 0 0 (fun _ => (0 : ℚ))
        (fun _ => 0) ⟨fun _ => 0, fun _ => 0, 0, ⟨0, fun _ => 0⟩⟩ 1).1 = 0 ∧
      1 = ((fun _ => Example.oneRule) (1 : Int)).size ∧ 0 < 1 ∧
      (1 / 3 : ℚ) = ((fun _ => Example.oneRule) (1 : Int)).pw (3 * 0) ∧
      (1 / 3 : ℚ) = ((fun _ => Example.oneRule) (1 : Int)).pw (3 * 0 + 1)) ∧
    (Example.oneSpace.val (0 * (2 * 1) + 2 * 0) = -(1 / 3) ∧
      Example.oneSpace.val (0 * (2 * 1) + 2 * 0 + 1) = 1 / 3) ∧
    (Example.oneSpace.val (1 * (2 * 1) + 2 * 0) = -(1 / 3) ∧
      Example.oneSpace.val (1 * (2 * 1) + 2 * 0 + 1) = 1 / 3 - 1) ∧
    (Example.oneSpace.val (2 * (2 * 1) + 2 * 0) = 1 - 1 / 3 ∧
      Example.oneSpace.val (2 * (2 * 1) + 2 * 0 + 1) = 1 / 3) :=
  have h := C11_basis_table (fun _ => Example.oneRule) 0 0 (fun _ => (0 : ℚ))
    (fun _ => 0) ⟨fun _ => 0, fun _ => 0, 0, ⟨0, fun _ => 0⟩⟩ 1 Example.oneSpace 1 0
    (1 / 3) (1 / 3) rfl rfl rfl (by decide) (by simp [Example.oneRule])
    (by simp [Example.oneRule])
  ⟨⟨rfl, rfl, rfl, by decide, by simp [Example.oneRule], by simp [Example.oneRule]⟩,
    h.1, h.2.1, h.2.2.1⟩

end BasisClaims

/-! ## Structure of the per-cell computation -/

section StructureClaims

variable {α : Type} [LinearOrderedField α]

/-- C13: the values scattered for a cell with 3 local edges do not depend on what the
shared buffers held before the cell, nor on the data of other cells: two runs whose
meshes agree on the cell's inverse Jacobian, determinant, cone, edge support sizes and
three signs (and on the edge offset `estart`), but may differ in everything else
(other cells, the position of the cell in the loop, the previous contents of
`local`, `load`, `indices` and `_tmp_matrix`), give the same 9 matrix entries, 3 load
entries and 3 indices at the scatter. -/
theorem C13_no_cross_cell_dependence (dm dm2 : DM α) (un un2 : Uninit α)
    (fs : function_space α) (c : Int) (buf buf2 : Buffers α) (k l : Nat)
    (hk : k < 3) (hl : l < 3)
    (hinv : ∀ n, n < 4 → dm2.invBk c n = dm.invBk c n)
    (hdet : dm2.detBk c = dm.detBk c)
    (hcone : ∀ j, j < 3 → dm2.cone c j = dm.cone c j)
    (hsupp : ∀ j, j < 3 → dm2.supportSize (dm2.cone c j) = dm.supportSize (dm.cone c j))
    (hsign : ∀ j : Nat, j < 3 →
      dm2.signs ((c - dm2.cstart) * 3 + (j : Int)) =
        dm.signs ((c - dm.cstart) * 3 + (j : Int)))
    (hestart : dm2.estart = dm.estart) :
    (cell_local dm2 un2 fs 3 c buf2).localM k l = (cell_local dm un fs 3 c buf).localM k l ∧
    (cell_local dm2 un2 fs 3 c buf2).load k = (cell_local dm un fs 3 c buf).load k ∧
    (cell_local dm2 un2 fs 3 c buf2).indices k = (cell_local dm un fs 3 c buf).indices k := by
  refine ⟨?_, ?_, ?_⟩
  · rw [cell_local_localM dm2 un2 fs 3 c buf2 k l hk hl,
      cell_local_localM dm un fs 3 c buf k l hk hl]
    exact local_entry_congr dm dm2 un un2 fs c k l hk hl hinv hdet hsupp hsign
  · rw [cell_local_load dm2 un2 fs 3 c buf2 k hk, cell_local_load dm un fs 3 c buf k hk]
    unfold is_boundary cell_sign
    have hl2 := load_spec_congr (dm2.invBk c) (dm.invBk c) hinv fs (dm.detBk c)
      (dm.signs ((c - dm.cstart) * 3 + k)) k
    simp only [hsupp k hk]
    rw [hsign k hk, hdet, load_eq_spec, load_eq_spec, hl2]
  · rw [cell_local_indices dm2 un2 fs 3 c buf2 k hk,
      cell_local_indices dm un fs 3 c buf k hk, hcone k hk, hestart]

/-- Witness for `C13_no_cross_cell_dependence`: cell `0` of the two-triangle mesh against
the same mesh with the geometry and signs of cell `1` changed, from different buffer
contents. -/
theorem C13_no_cross_cell_dependence_witness :
    (cell_local
        ({ Example.twoTriangles with
            detBk := fun c => if c = 0 then 1 else 5
            signs := fun n => if n < 3 then 1 else -1 } : DM ℚ)
        Example.zeroInit Example.oneSpace 3 0
        ⟨fun _ _ => 7, fun _ => 8, fun _ => 9⟩).localM 1 2 =
      (cell_local Example.twoTriangles Example.zeroInit Example.oneSpace 3 0
        Example.zeroInit.buffers).localM 1 2 :=
  (C13_no_cross_cell_dependence Example.twoTriangles
    ({ Example.twoTriangles with
        detBk := fun c => if c = 0 then 1 else 5
        signs := fun n => if n < 3 then 1 else -1 } : DM ℚ)
    Example.zeroInit Example.zeroInit Example.oneSpace 0 Example.zeroInit.buffers
    ⟨fun _ _ => 7, fun _ => 8, fun _ => 9⟩ 1 2 (by decide) (by decide)
    (fun _ _ => rfl) rfl (fun _ _ => rfl) (fun _ _ => rfl)
    (fun j hj => by
      have h1 : ((j : Int)) < 3 := by exact_mod_cast hj
      have h2 : ¬ ((j : Int) = 3) := by omega
      simp [Example.twoTriangles, h1, h2])
    rfl).1

/-- C14: for every row-major 2x2 matrix `invBk = [a b; c d]`, `_invBk_invBkT_2D` writes
`res = [a^2 + b^2, ac + bd; ac + bd, c^2 + d^2]`, so `res[1] = res[2]`, and leaves the
rest of `res` as it was; over one address space, with the four cells of `invBk` and the
four cells of `res` disjoint, the same four values (computed from the matrix as it was
before the call) are stored at `res[0..3]` and no other address is written, so `invBk`
is not modified. -/
theorem C14_invBk_invBkT (B res mem : Nat → α) (p q : Nat)
    (hdisj : p + 4 ≤ q ∨ q + 4 ≤ p) :
    (_invBk_invBkT_2D B res 0 = B 0 * B 0 + B 1 * B 1 ∧
      _invBk_invBkT_2D B res 1 = B 0 * B 2 + B 1 * B 3 ∧
      _invBk_invBkT_2D B res 2 = B 0 * B 2 + B 1 * B 3 ∧
      _invBk_invBkT_2D B res 3 = B 2 * B 2 + B 3 * B 3 ∧
      _invBk_invBkT_2D B res 1 = _invBk_invBkT_2D B res 2 ∧
      ∀ n, 4 ≤ n → _invBk_invBkT_2D B res n = res n) ∧
    (_invBk_invBkT_2D_mem mem p q (q + 0) =
        mem (p + 0) * mem (p + 0) + mem (p + 1) * mem (p + 1) ∧
      _invBk_invBkT_2D_mem mem p q (q + 1) =
        mem (p + 0) * mem (p + 2) + mem (p + 1) * mem (p + 3) ∧
      _invBk_invBkT_2D_mem mem p q (q + 2) =
        mem (p + 0) * mem (p + 2) + mem (p + 1) * mem (p + 3) ∧
      _invBk_invBkT_2D_mem mem p q (q + 3) =
        mem (p + 2) * mem (p + 2) + mem (p + 3) * mem (p + 3) ∧
      (∀ a, (a < q ∨ q + 4 ≤ a) → _invBk_invBkT_2D_mem mem p q a = mem a) ∧
      ∀ j, j < 4 → _invBk_invBkT_2D_mem mem p q (p + j) = mem (p + j)) := by
  have hmem := invBk_mem_entries mem p q hdisj
  refine ⟨⟨?_, ?_, ?_, ?_, ?_, ?_⟩, hmem.1, hmem.2.1, hmem.2.2.1, hmem.2.2.2,
    fun a ha => invBk_mem_frame mem p q a ha,
    fun j hj => invBk_mem_frame mem p q (p + j) (by omega)⟩
  · simp [_invBk_invBkT_2D, Function.update_apply]
  · simp [_invBk_invBkT_2D, Function.update_apply]
  · simp [_invBk_invBkT_2D, Function.update_apply]
  · simp [_invBk_invBkT_2D, Function.update_apply]
  · simp [_invBk_invBkT_2D, Function.update_apply]
  · intro n hn
    have h0 : n ≠ 0 := by omega
    have h1 : n ≠ 1 := by omega
    have h2 : n ≠ 2 := by omega
    have h3 : n ≠ 3 := by omega
    unfold _invBk_invBkT_2D
    simp only [Function.update_apply, h0, h1, h2, h3, if_false]

/-- Witness for `C14_invBk_invBkT`: the matrix `[1 2; 3 4]` stored at addresses `0..3`,
the result at addresses `4..7`. -/
theorem C14_invBk_invBkT_witness :
    ((0 : Nat) + 4 ≤ 4 ∨ 4 + 4 ≤ (0 : Nat)) ∧
    _invBk_invBkT_2D_mem (fun a => ((a : ℚ) + 1)) 0 4 (4 + 1) =
      (((0 + 0 : Nat) : ℚ) + 1) * (((0 + 2 : Nat) : ℚ) + 1)
        + (((0 + 1 : Nat) : ℚ) + 1) * (((0 + 3 : Nat) : ℚ) + 1) :=
  ⟨Or.inl (by decide),
    (C14_invBk_invBkT (fun a => ((a : ℚ) + 1)) (fun _ => 0) (fun a => ((a : ℚ) + 1)) 0 4
      (Or.inl (by decide))).2.2.1⟩

/-- C15: for every cell `c` in `[cstart, cend)` with 3 local edges and every local edge
`k`, the table offset `3*(c - cstart) + k` is non-negative, the index scattered for `k`
is `edgelist_c[k] - estart`, and the sign used for `k` is `signs[3*(c - cstart) + k]`
both where `k` is the row index (load entry and row `k` of the local matrix) and where
`k` is the column index (row `l` of the local matrix). -/
theorem C15_sign_and_dof_resolution (dm : DM α) (un : Uninit α) (fs : function_space α)
    (c : Int) (buf : Buffers α) (k l : Nat) (hc : dm.cstart ≤ c) (hc2 : c < dm.cend)
    (hk : k < 3) (hl : l < 3) :
    0 ≤ 3 * (c - dm.cstart) + k ∧
    (cell_local dm un fs 3 c buf).indices k = dm.cone c k - dm.estart ∧
    (¬ is_boundary dm c k → (cell_local dm un fs 3 c buf).load k =
      load_vector_2D (dm.invBk c) fs (dm.detBk c) k (dm.signs (3 * (c - dm.cstart) + k))) ∧
    (¬ is_boundary dm c k → (cell_local dm un fs 3 c buf).localM k l =
      stiffness_matrix_2D fs (dm.detBk c) (dm.signs (3 * (c - dm.cstart) + k))
        (dm.signs (3 * (c - dm.cstart) + l)) k l
      + mass_matrix_2D (cell_tmp_matrix dm un c) fs (dm.detBk c)
        (dm.signs (3 * (c - dm.cstart) + k)) (dm.signs (3 * (c - dm.cstart) + l)) k l) ∧
    (¬ is_boundary dm c l → (cell_local dm un fs 3 c buf).localM l k =
      stiffness_matrix_2D fs (dm.detBk c) (dm.signs (3 * (c - dm.cstart) + l))
        (dm.signs (3 * (c - dm.cstart) + k)) l k
      + mass_matrix_2D (cell_tmp_matrix dm un c) fs (dm.detBk c)
        (dm.signs (3 * (c - dm.cstart) + l)) (dm.signs (3 * (c - dm.cstart) + k)) l k) := by
  have _ := hc2
  have hoff : ∀ j : Nat, (c - dm.cstart) * 3 + (j : Int) = 3 * (c - dm.cstart) + j := by
    intro j; ring
  refine ⟨by omega, cell_local_indices dm un fs 3 c buf k hk, ?_, ?_, ?_⟩
  · intro hb
    rw [cell_local_load dm un fs 3 c buf k hk, if_neg hb, cell_sign, hoff]
  · intro hb
    rw [cell_local_localM dm un fs 3 c buf k l hk hl, local_entry, if_neg hb, cell_sign,
      cell_sign, hoff, hoff]
  · intro hb
    rw [cell_local_localM dm un fs 3 c buf l k hl hk, local_entry, if_neg hb, cell_sign,
      cell_sign, hoff, hoff]

/-- Witness for `C15_sign_and_dof_resolution`: cell `1` of the two-triangle mesh, local
edges `0` (the shared edge `7`) and `2`; the index scattered for local edge `0` is
`7 - 6`. -/
theorem C15_sign_and_dof_resolution_witness :
    (Example.twoTriangles.cstart ≤ 1 ∧ (1 : Int) < Example.twoTriangles.cend ∧
      0 < 3 ∧ 2 < 3) ∧
    (cell_local Example.twoTriangles Example.zeroInit Example.oneSpace 3 1
        Example.zeroInit.buffers).indices 0 =
      Example.twoTriangles.cone 1 0 - Example.twoTriangles.estart :=
  ⟨⟨by decide, by decide, by decide, by decide⟩,
    (C15_sign_and_dof_resolution Example.twoTriangles Example.zeroInit Example.oneSpace 1
      Example.zeroInit.buffers 0 2 (by decide) (by decide) (by decide) (by decide)).2.1⟩

/-- C16: for a cell with 3 local edges and all `k`, `l` in `{0,1,2}`, the entry
`local[k][l]` at the scatter is decided by the boundary status of the row edge `k`
alone: if `k` is a boundary edge it is `1` when `l = k` and `0` when `l ≠ k`; if `k` is
not a boundary edge it is `stiffness(k,l) + mass(k,l)` (with `C = invBk * invBk^T`) for
every `l`, whatever the boundary status of `l`. -/
theorem C16_row_wise_local_matrix (dm : DM α) (un : Uninit α) (fs : function_space α)
    (c : Int) (buf : Buffers α) (k l : Nat) (hk : k < 3) (hl : l < 3) :
    (is_boundary dm c k →
      (cell_local dm un fs 3 c buf).localM k l = if l = k then 1 else 0) ∧
    (¬ is_boundary dm c k →
      (cell_local dm un fs 3 c buf).localM k l =
        stiffness_matrix_2D fs (dm.detBk c) (dm.signs ((c - dm.cstart) * 3 + k))
          (dm.signs ((c - dm.cstart) * 3 + l)) k l
        + mass_matrix_2D (invBk_invBkT_spec (dm.invBk c)) fs (dm.detBk c)
          (dm.signs ((c - dm.cstart) * 3 + k)) (dm.signs ((c - dm.cstart) * 3 + l))
          k l) := by
  rw [cell_local_localM dm un fs 3 c buf k l hk hl, local_entry]
  constructor
  · intro hb; rw [if_pos hb]
  · intro hb; rw [if_neg hb, mass_cell_tmp]; rfl

/-- Witness for `C16_row_wise_local_matrix`: cell `0` of the two-triangle mesh, boundary
row `0` and column `1`. -/
theorem C16_row_wise_local_matrix_witness :
    (0 < 3 ∧ 1 < 3 ∧ is_boundary Example.twoTriangles 0 0) ∧
    (cell_local Example.twoTriangles Example.zeroInit Example.oneSpace 3 0
        Example.zeroInit.buffers).localM 0 1 = (if 1 = 0 then 1 else 0) :=
  ⟨⟨by decide, by decide, by simp [is_boundary, Example.twoTriangles]⟩,
    (C16_row_wise_local_matrix Example.twoTriangles Example.zeroInit Example.oneSpace 0
      Example.zeroInit.buffers 0 1 (by decide) (by decide)).1
      (by simp [is_boundary, Example.twoTriangles])⟩

end StructureClaims

/-! ## Rounding in the mass kernel -/

section RoundingClaims

set_option maxRecDepth 100000

end RoundingClaims

/-! ## Algebraic properties of the local matrix -/

section AlgebraicClaims

variable {α : Type} [LinearOrderedField α]

/-- C18: for a cell with 3 local edges whose signs are `+1` or `-1`, replacing the sign
table by one that negates the three signs of the cell leaves every entry `local[k][l]`
unchanged and negates every non-boundary load entry (a boundary load entry is `0` under
both tables); and replacing it by any table whose three signs for the cell are `+1` or
`-1` leaves every diagonal entry `local[k][k]` unchanged. -/
theorem C18_sign_flip (dm : DM α) (un : Uninit α) (fs : function_space α) (c : Int)
    (buf : Buffers α) (s2 s3 : Int → Int) (k l : Nat) (hk : k < 3) (hl : l < 3)
    (hsign : ∀ j : Nat, j < 3 →
      dm.signs ((c - dm.cstart) * 3 + (j : Int)) = 1 ∨
        dm.signs ((c - dm.cstart) * 3 + (j : Int)) = -1)
    (hneg : ∀ j : Nat, j < 3 →
      s2 ((c - dm.cstart) * 3 + (j : Int)) = -dm.signs ((c - dm.cstart) * 3 + (j : Int)))
    (hs3 : ∀ j : Nat, j < 3 →
      s3 ((c - dm.cstart) * 3 + (j : Int)) = 1 ∨ s3 ((c - dm.cstart) * 3 + (j : Int)) = -1) :
    (cell_local { dm with signs := s2 } un fs 3 c buf).localM k l =
      (cell_local dm un fs 3 c buf).localM k l ∧
    (¬ is_boundary dm c k →
      (cell_local { dm with signs := s2 } un fs 3 c buf).load k =
        -(cell_local dm un fs 3 c buf).load k) ∧
    (is_boundary dm c k →
      (cell_local { dm with signs := s2 } un fs 3 c buf).load k = 0 ∧
        (cell_local dm un fs 3 c buf).load k = 0) ∧
    (cell_local { dm with signs := s3 } un fs 3 c buf).localM k k =
      (cell_local dm un fs 3 c buf).localM k k := by
  have hbnd : ∀ (s : Int → Int) (j : Nat),
      is_boundary ({ dm with signs := s } : DM α) c j ↔ is_boundary dm c j := by
    intro s j; exact Iff.rfl
  have htmp : ∀ s : Int → Int,
      cell_tmp_matrix ({ dm with signs := s } : DM α) un c = cell_tmp_matrix dm un c := by
    intro s; rfl
  have hcs : ∀ (s : Int → Int) (j : Nat),
      cell_sign ({ dm with signs := s } : DM α) c j = s ((c - dm.cstart) * 3 + (j : Int)) := by
    intro s j; rfl
  have hcs0 : ∀ j : Nat, cell_sign dm c j = dm.signs ((c - dm.cstart) * 3 + (j : Int)) := by
    intro j; rfl
  have hdetB : ∀ s : Int → Int, ({ dm with signs := s } : DM α).detBk c = dm.detBk c := by
    intro s; rfl
  have hinvB : ∀ s : Int → Int, ({ dm with signs := s } : DM α).invBk c = dm.invBk c := by
    intro s; rfl
  refine ⟨?_, ?_, ?_, ?_⟩
  · rw [cell_local_localM _ un fs 3 c buf k l hk hl,
      cell_local_localM dm un fs 3 c buf k l hk hl, local_entry, local_entry]
    by_cases hb : is_boundary dm c k
    · rw [if_pos ((hbnd s2 k).mpr hb), if_pos hb]
    · rw [if_neg (fun h => hb ((hbnd s2 k).mp h)), if_neg hb, htmp, hcs, hcs, hcs0, hcs0,
        hdetB, hneg k hk, hneg l hl, stiffness_neg_signs, mass_neg_signs]
  · intro hb
    rw [cell_local_load _ un fs 3 c buf k hk, cell_local_load dm un fs 3 c buf k hk,
      if_neg (fun h => hb ((hbnd s2 k).mp h)), if_neg hb, hcs, hcs0, hdetB, hinvB,
      hneg k hk, load_neg_sign]
  · intro hb
    rw [cell_local_load _ un fs 3 c buf k hk, cell_local_load dm un fs 3 c buf k hk,
      if_pos ((hbnd s2 k).mpr hb), if_pos hb]
    exact ⟨rfl, rfl⟩
  · rw [cell_local_localM _ un fs 3 c buf k k hk hk,
      cell_local_localM dm un fs 3 c buf k k hk hk, local_entry, local_entry]
    by_cases hb : is_boundary dm c k
    · rw [if_pos ((hbnd s3 k).mpr hb), if_pos hb]
    · rw [if_neg (fun h => hb ((hbnd s3 k).mp h)), if_neg hb, htmp, hcs, hcs0, hdetB,
        stiffness_diag_sign fs (dm.detBk c) _ _ k (hs3 k hk) (hsign k hk),
        mass_diag_sign _ fs (dm.detBk c) _ _ k (hs3 k hk) (hsign k hk)]

/-- Witness for `C18_sign_flip`: cell `0` of the two-triangle mesh (signs `+1, +1, +1`)
against the tables that are `-1` everywhere. -/
theorem C18_sign_flip_witness :
    (1 < 3 ∧ ∀ j : Nat, j < 3 →
      Example.twoTriangles.signs ((0 - Example.twoTriangles.cstart) * 3 + (j : Int)) = 1 ∨
      Example.twoTriangles.signs ((0 - Example.twoTriangles.cstart) * 3 + (j : Int)) = -1) ∧
    (cell_local { Example.twoTriangles with signs := fun _ => -1 } Example.zeroInit
        Example.oneSpace 3 0 Example.zeroInit.buffers).localM 1 1 =
      (cell_local Example.twoTriangles Example.zeroInit Example.oneSpace 3 0
        Example.zeroInit.buffers).localM 1 1 :=
  have hsign : ∀ j : Nat, j < 3 →
      Example.twoTriangles.signs ((0 - Example.twoTriangles.cstart) * 3 + (j : Int)) = 1 ∨
      Example.twoTriangles.signs ((0 - Example.twoTriangles.cstart) * 3 + (j : Int)) = -1 := by
    intro j hj
    have h2 : ¬ ((j : Int) = 3) := by omega
    simp [Example.twoTriangles, h2]
  have hneg : ∀ j : Nat, j < 3 →
      (fun _ : Int => (-1 : Int)) ((0 - Example.twoTriangles.cstart) * 3 + (j : Int)) =
        -Example.twoTriangles.signs ((0 - Example.twoTriangles.cstart) * 3 + (j : Int)) := by
    intro j hj
    have h2 : ¬ ((j : Int) = 3) := by omega
    simp [Example.twoTriangles, h2]
  ⟨⟨by decide, hsign⟩,
    (C18_sign_flip Example.twoTriangles Example.zeroInit Example.oneSpace 0
      Example.zeroInit.buffers (fun _ => -1) (fun _ => -1) 1 1 (by decide) (by decide)
      hsign hneg (fun _ _ => Or.inr rfl)).1⟩

end AlgebraicClaims

/-! ## Accumulation in the global matrix -/

section ScatterClaims

variable {α : Type} [LinearOrderedField α]

theorem assemble_system_ok (dm : DM α) (err : ErrorCodes) (un : Uninit α)
    (fs : function_space α) (hdim : dm.dim = 2) (hok : err.allSucceed) :
    (assemble_system dm err un fs).1 = 0 := by
  obtain ⟨⟨h1, h2, h3, h4, h5⟩, hcells⟩ := hok
  have hloop := cell_loop_ok dm err un fs (dm.coneSize dm.cstart) hcells
    (dm.cend - dm.cstart).toNat dm.cstart un.buffers []
  unfold assemble_system
  simp [h1, h2, h3, h4, h5, hdim, hloop]

theorem two_cells_diag (dm : DM α) (err : ErrorCodes) (un : Uninit α)
    (fs : function_space α) (e : Int) (k1 k2 : Nat)
    (hdim : dm.dim = 2) (hok : err.allSucceed)
    (hcells : dm.cend = dm.cstart + 2) (hcone : dm.coneSize dm.cstart = 3)
    (hk1 : k1 < 3) (hk2 : k2 < 3)
    (h1 : ∀ j : Nat, j < 3 → (dm.cone dm.cstart j = e ↔ j = k1))
    (h2 : ∀ j : Nat, j < 3 → (dm.cone (dm.cstart + 1) j = e ↔ j = k2)) :
    (applyCalls (assemble_system dm err un fs).2 zeroTarget).A (e - dm.estart)
        (e - dm.estart) =
      (cell_local dm un fs 3 dm.cstart un.buffers).localM k1 k1 +
        (cell_local dm un fs 3 (dm.cstart + 1)
          (cell_local dm un fs 3 dm.cstart un.buffers)).localM k2 k2 := by
  have hidx1 : ∀ j : Nat, j < 3 →
      ((cell_local dm un fs 3 dm.cstart un.buffers).indices j = e - dm.estart ↔ j = k1) := by
    intro j hj
    rw [cell_local_indices dm un fs 3 dm.cstart un.buffers j hj, ← h1 j hj]
    constructor <;> intro h <;> omega
  have hidx2 : ∀ j : Nat, j < 3 →
      ((cell_local dm un fs 3 (dm.cstart + 1)
        (cell_local dm un fs 3 dm.cstart un.buffers)).indices j = e - dm.estart ↔ j = k2) := by
    intro j hj
    rw [cell_local_indices dm un fs 3 (dm.cstart + 1) _ j hj, ← h2 j hj]
    constructor <;> intro h <;> omega
  have h3 : (3 : Int).toNat = 3 := rfl
  rw [assemble_two_cells dm err un fs hdim hok hcells hcone]
  simp only [applyCalls, List.foldl, TargetCall.apply, h3]
  rw [scatter_vec_A, scatter_mat_A, scatter_vec_A, scatter_mat_A,
    diag_sum _ _ _ k1 hk1 hidx1, diag_sum _ _ _ k2 hk2 hidx2]
  simp [zeroTarget]

/-- C12: for a 2D mesh of two triangles (cells `cstart` and `cstart + 1`, 3 local edges
each) in which the edge `e` occurs exactly once in the cone of each cell, at the local
positions `k1` and `k2`, with every collaborator call succeeding, `assemble_system`
returns 0 and, the scatter being addition at the given indices into zero-initialised
targets, the global matrix entry at `(e - estart, e - estart)` equals
`local_c1[k1][k1] + local_c2[k2][k2]`, where `local_c` is the local matrix computed for
cell `c` (from whatever buffer contents). -/
theorem C12_additive_accumulation (dm : DM α) (err : ErrorCodes) (un : Uninit α)
    (fs : function_space α) (e : Int) (k1 k2 : Nat) (buf1 buf2 : Buffers α)
    (hdim : dm.dim = 2) (hok : err.allSucceed)
    (hcells : dm.cend = dm.cstart + 2) (hcone : dm.coneSize dm.cstart = 3)
    (hk1 : k1 < 3) (hk2 : k2 < 3)
    (h1 : ∀ j : Nat, j < 3 → (dm.cone dm.cstart j = e ↔ j = k1))
    (h2 : ∀ j : Nat, j < 3 → (dm.cone (dm.cstart + 1) j = e ↔ j = k2)) :
    (assemble_system dm err un fs).1 = 0 ∧
    (applyCalls (assemble_system dm err un fs).2 zeroTarget).A (e - dm.estart)
        (e - dm.estart) =
      (cell_local dm un fs 3 dm.cstart buf1).localM k1 k1 +
        (cell_local dm un fs 3 (dm.cstart + 1) buf2).localM k2 k2 := by
  refine ⟨assemble_system_ok dm err un fs hdim hok, ?_⟩
  rw [two_cells_diag dm err un fs e k1 k2 hdim hok hcells hcone hk1 hk2 h1 h2,
    cell_local_localM dm un fs 3 dm.cstart un.buffers k1 k1 hk1 hk1,
    cell_local_localM dm un fs 3 dm.cstart buf1 k1 k1 hk1 hk1,
    cell_local_localM dm un fs 3 (dm.cstart + 1) _ k2 k2 hk2 hk2,
    cell_local_localM dm un fs 3 (dm.cstart + 1) buf2 k2 k2 hk2 hk2]

/-- Witness for `C12_additive_accumulation`: the two-triangle mesh, whose shared edge
`7` is local edge `1` of cell `0` and local edge `0` of cell `1`; the global entry is
the one at `(1, 1)`. -/
theorem C12_additive_accumulation_witness :
    (Example.twoTriangles.dim = 2 ∧ Example.allOk.allSucceed ∧
      Example.twoTriangles.cend = Example.twoTriangles.cstart + 2 ∧
      Example.twoTriangles.coneSize Example.twoTriangles.cstart = 3 ∧
      (∀ j : Nat, j < 3 →
        (Example.twoTriangles.cone Example.twoTriangles.cstart j = 7 ↔ j = 1)) ∧
      (∀ j : Nat, j < 3 →
        (Example.twoTriangles.cone (Example.twoTriangles.cstart + 1) j = 7 ↔ j = 0))) ∧
    (applyCalls (assemble_system Example.twoTriangles Example.allOk Example.zeroInit
        Example.oneSpace).2 zeroTarget).A (7 - Example.twoTriangles.estart)
        (7 - Example.twoTriangles.estart) =
      (cell_local Example.twoTriangles Example.zeroInit Example.oneSpace 3
          Example.twoTriangles.cstart Example.zeroInit.buffers).localM 1 1 +
        (cell_local Example.twoTriangles Example.zeroInit Example.oneSpace 3
          (Example.twoTriangles.cstart + 1) Example.zeroInit.buffers).localM 0 0 :=
  have ha : Example.allOk.allSucceed :=
    ⟨⟨rfl, rfl, rfl, rfl, rfl⟩, fun _ => ⟨rfl, rfl, rfl, rfl⟩⟩
  have h1 : ∀ j : Nat, j < 3 →
      (Example.twoTriangles.cone Example.twoTriangles.cstart j = 7 ↔ j = 1) := by
    intro j hj
    interval_cases j <;> simp [Example.twoTriangles]
  have h2 : ∀ j : Nat, j < 3 →
      (Example.twoTriangles.cone (Example.twoTriangles.cstart + 1) j = 7 ↔ j = 0) := by
    intro j hj
    interval_cases j <;> simp [Example.twoTriangles]
  ⟨⟨rfl, ha, rfl, rfl, h1, h2⟩,
    (C12_additive_accumulation Example.twoTriangles Example.allOk Example.zeroInit
      Example.oneSpace 7 1 0 Example.zeroInit.buffers Example.zeroInit.buffers rfl ha rfl
      rfl (by decide) (by decide) h1 h2).2⟩

end ScatterClaims

end EdgeElements
